import Mathlib

/-!
Shallow embedding of the otc-cloudeye-exporter metric pipeline
(internal/collector/metrics.go, internal/clients/obs_client.go,
internal/clients/rms_client.go, internal/clients/evs_client.go,
internal/constants/constants.go, and the Prometheus bridge in
the collector package) together with proofs about the behaviour
of the embedded code.

Modelling conventions:
* Go `map[string]string` is modelled as an association list (`GoMap`)
  with overwrite-on-insert; the model fixes one iteration order
  (insertion order) for the scans that iterate a map.
* Go `time.Duration` / float64 backoff arithmetic is modelled over `ℚ`
  (exact arithmetic; float rounding is abstracted away).
* Wall-clock times are modelled as `Int` seconds (cache TTL logic) or
  `Int` timestamps passed explicitly (`now` parameters) where the Go
  code calls `time.Now()`.
* Fallible remote calls are modelled as `Except` values supplied by an
  environment record; a remote operation that is retried is a function
  from the attempt index to its result.
* The concurrent per-data-point fan-out in `processMetrics` is modelled
  sequentially in input order; the claims proved here do not depend on
  the accumulation order.
-/

/-! ### Character/string helpers mirroring Go's `strings` package -/

/-- `listStartsWith p s` is true when `p` is a prefix of `s` (Go `strings.HasPrefix`). -/

def listStartsWith : List Char → List Char → Bool
  | [], _ => true
  | _ :: _, [] => false
  | a :: as, b :: bs => a == b && listStartsWith as bs

/-- `listContainsSub s p` is true when `p` occurs as a contiguous substring of `s`
(Go `strings.Contains`). -/

def listContainsSub : List Char → List Char → Bool
  | s, p =>
    listStartsWith p s ||
      (match s with
       | [] => false
       | _ :: s' => listContainsSub s' p)

/-- Go `strings.HasSuffix`, on character lists. -/

def listEndsWith (s p : List Char) : Bool :=
  listStartsWith p.reverse s.reverse

/-- Go `strings.Contains` on strings. -/

def strContains (s pat : String) : Bool :=
  listContainsSub s.data pat.data

/-- Go `strings.HasPrefix` on strings. -/

def strStartsWith (s pat : String) : Bool :=
  listStartsWith pat.data s.data

/-- Go `strings.HasSuffix` on strings. -/

def strEndsWith (s pat : String) : Bool :=
  listEndsWith s.data pat.data

/-- Go `strings.ToLower` (per-character lowering; ASCII inputs in this code base). -/

def goToLowerStr (s : String) : String :=
  ⟨s.data.map Char.toLower⟩

/-- Whitespace recognised by the model of Go `strings.TrimSpace`. -/

def isSpaceChar (c : Char) : Bool :=
  c == ' ' || c == '\t' || c == '\n' || c == '\r'

/-- Go `strings.TrimSpace` (restricted to the ASCII whitespace that occurs here). -/

def goTrim (s : String) : String :=
  ⟨((s.data.dropWhile isSpaceChar).reverse.dropWhile isSpaceChar).reverse⟩

/-- Go `strings.LastIndex(s, string(c))` on the character level: the index of the
last occurrence of `c`, or `-1` when absent. -/

def lastIndexOf (l : List Char) (c : Char) : Int :=
  (l.foldl (fun (acc : Int × Nat) ch =>
    (if ch == c then (acc.2 : Int) else acc.1, acc.2 + 1)) (-1, 0)).1

/-! ### Go string maps as association lists -/

/-- A Go `map[string]string`, modelled as an association list whose earlier
entries shadow later ones; `goInsert` overwrites in place. -/

def GoMap : Type := List (String × String)

instance : DecidableEq GoMap := by
  unfold GoMap
  infer_instance

/-- Map read returning `Option` (`v, ok := m[k]`). -/

def goGet : GoMap → String → Option String
  | [], _ => none
  | (k', v) :: rest, k => if k' == k then some v else goGet rest k

/-- Map read with Go's zero-value default (`m[k]` in expression position). -/

def goGetD (m : GoMap) (k : String) : String :=
  (goGet m k).getD ""

/-- Map write (`m[k] = v`), overwriting an existing binding. -/

def goInsert : GoMap → String → String → GoMap
  | [], k, v => [(k, v)]
  | (k', v') :: rest, k, v =>
    if k' == k then (k', v) :: rest else (k', v') :: goInsert rest k v

/-! ### Constants (internal/constants/constants.go) -/

def LabelNamespace : String := "namespace"

def LabelResourceID : String := "resource_id"

def LabelResourceName : String := "resource_name"

def LabelProjectID : String := "project_id"

def LabelProjectName : String := "project_name"

def LabelUnit : String := "unit"

def ResourceIDTotal : String := "total"

def ResourceIDUnknown : String := "unknown"

def NamespaceOBS : String := "SYS.OBS"

def NamespaceAGT : String := "AGT.ECS"

/-- constants.OBSOperations. -/

def OBSOperations : List String :=
  ["HEAD_OBJECT", "PUT_OBJECT", "DELETE_OBJECT", "GET_OBJECT",
   "PUT_PART", "POST_UPLOAD_INIT", "POST_UPLOAD_COMPLETE",
   "LIST_OBJECTS", "DELETE_OBJECTS", "COPY_OBJECT",
   "HEAD_BUCKET", "LIST_BUCKET_OBJECTS", "LIST_BUCKET_UPLOADS",
   "GET_BUCKET_LOCATION", "GET_BUCKET_POLICY", "PUT_BUCKET_POLICY",
   "DELETE_BUCKET_POLICY", "GET_BUCKET_ACL", "PUT_BUCKET_ACL"]

/-- constants.RetryableErrors. -/

def RetryableErrors : List String :=
  ["408", "429", "500", "503", "timeout",
   "connection reset", "connection refused"]

/-! ### Retry logic (metrics.go: RetryConfig, shouldRetry, getBackoffDuration, withRetry) -/

/-- collector.RetryConfig; durations are modelled as exact rationals. -/

structure RetryConfig where
  maxRetries : Nat
  initialBackoff : ℚ
  maxBackoff : ℚ
  backoffMultiplier : ℚ
  retryableErrors : List String

/-- `(rc *RetryConfig) shouldRetry(err, attempt)`. The `err == nil` guard of the
Go code is vacuous here because errors in the model are always present. -/

def shouldRetry (rc : RetryConfig) (err : String) (attempt : Nat) : Bool :=
  if attempt ≥ rc.maxRetries then false
  else
    let errStr := goToLowerStr err
    rc.retryableErrors.any (fun retryableErr => strContains errStr retryableErr)

/-- Iterated multiplication, the exact-arithmetic counterpart of `math.Pow`
with a natural exponent. -/

def ratPow (q : ℚ) : Nat → ℚ
  | 0 => 1
  | n + 1 => ratPow q n * q

/-- Kernel-computable strict comparison on `ℚ` (cross multiplication). -/

def ratLtB (a b : ℚ) : Bool :=
  decide (a.num * (b.den : Int) < b.num * (a.den : Int))

/-- `(rc *RetryConfig) getBackoffDuration(attempt)`. -/

def goBackoffDuration (rc : RetryConfig) (attempt : Nat) : ℚ :=
  let backoff := rc.initialBackoff * ratPow rc.backoffMultiplier attempt
  if ratLtB rc.maxBackoff backoff then rc.maxBackoff else backoff

/-- The wrapped error produced after exhaustion
(`operation %s failed after %d attempts: %w`). -/

def wrapRetryErr (name : String) (rc : RetryConfig) (e : String) : String :=
  "operation " ++ name ++ " failed after " ++ toString (rc.maxRetries + 1) ++ " attempts: " ++ e

/-- The loop body of `withRetry`, with the attempt counter made explicit and the
backoff sleeps recorded in a trace. `fuel` bounds the remaining iterations and is
initialised to `maxRetries`, which the `shouldRetry` guard makes sufficient: a
retry is only taken while `attempt < maxRetries`. The sleep recorded when moving
from attempt `a` to attempt `a+1` is `getBackoffDuration(a)`, exactly as in the
Go loop head. -/

def withRetryGo (op : Nat → Except String α) (rc : RetryConfig) (name : String) :
    Nat → Nat → Except String α × List ℚ
  | fuel, attempt =>
    match op attempt with
    | .ok v => (.ok v, [])
    | .error e =>
      if shouldRetry rc e attempt then
        match fuel with
        | 0 => (.error (wrapRetryErr name rc e), [])
        | fuel' + 1 =>
          let r := withRetryGo op rc name fuel' (attempt + 1)
          (r.1, goBackoffDuration rc attempt :: r.2)
      else (.error (wrapRetryErr name rc e), [])

/-- `withRetry(operation, config, operationName)`: result plus the trace of
backoff sleeps, in order. -/

def withRetry (op : Nat → Except String α) (rc : RetryConfig) (name : String) :
    Except String α × List ℚ :=
  withRetryGo op rc name rc.maxRetries 0

/-! ### Data model (cesModel types and collector.MetricExport) -/

/-- cesModel.MetricsDimension. -/

structure Dimension where
  name : String
  value : String
deriving DecidableEq

/-- One sample of cesModel.DatapointForBatchMetric: nullable average plus a
millisecond timestamp. -/

structure Datapoint where
  average : Option ℚ
  timestamp : Int
deriving DecidableEq

/-- cesModel.BatchMetricData: the dimensions pointer may be nil. -/

structure BatchMetricData where
  metricName : String
  dimensions : Option (List Dimension)
  unit : Option String
  datapoints : List Datapoint
deriving DecidableEq

/-- collector.MetricExport; the timestamp is in nanoseconds. -/

structure MetricExport where
  metricName : String
  labels : GoMap
  value : ℚ
  unit : String
  timestamp : Int
deriving DecidableEq

/-- collector.Volume / collector.Attachment (EVS). -/

structure Attachment where
  serverId : String
  device : String
deriving DecidableEq

structure Volume where
  id : String
  name : String
  attachments : List Attachment
deriving DecidableEq

/-- `safeDimensions`. -/

def safeDimensions (dims : Option (List Dimension)) : List Dimension :=
  dims.getD []

/-- `safeUnit`. -/

def safeUnit (u : Option String) : String :=
  u.getD ""

/-- `cloneMap` copies a label map; aliasing is immaterial in the pure model. -/

def cloneMap (m : GoMap) : GoMap := m

/-! ### Label building and resource-id resolution (metrics.go) -/

/-- `NewLabelBuilder(namespace).AddDimensions(m.Dimensions).Build()`:
lower-cased dimension names, trimmed values, on top of the namespace label. -/

def buildLabels (ns : String) (dims : Option (List Dimension)) : GoMap :=
  (safeDimensions dims).foldl
    (fun l d => goInsert l (goToLowerStr d.name) (goTrim d.value))
    [(LabelNamespace, ns)]

/-- The meta keys excluded from the `_id` scan in `findResourceID`. -/

def isExcludedIdKey (k : String) : Bool :=
  k == "tenant_id" || k == "project_id" || k == "domain_id" || k == "user_id"

/-- First loop of `findResourceID`: keys ending in `_id` (meta keys excluded)
with a non-empty, non-"unknown" value. -/

def scanIdKeys : GoMap → Option String
  | [] => none
  | (k, v) :: rest =>
    if listEndsWith k.data "_id".data && !isExcludedIdKey k &&
        !(v == ResourceIDUnknown) && !(v == "") then some v
    else scanIdKeys rest

/-- Second loop of `findResourceID`: any non-meta dimension value. -/

def scanFallback : GoMap → Option String
  | [] => none
  | (k, v) :: rest =>
    if !isExcludedIdKey k && !(k == LabelNamespace) &&
        !(v == "") && !(v == ResourceIDUnknown) then some v
    else scanFallback rest

/-- `findResourceID(labels)`; `""` signals that no candidate was found. The
model iterates the label map in insertion order (Go map iteration order is
unspecified; the properties proved below do not depend on the order). -/

def findResourceID (labels : GoMap) : String :=
  match scanIdKeys labels with
  | some v => v
  | none => (scanFallback labels).getD ""

/-- `getBucketNameFromDimensions`. -/

def getBucketNameFromDimensions (dims : Option (List Dimension)) : String :=
  match (safeDimensions dims).find? (fun d => goToLowerStr d.name == "bucket_name") with
  | some d => d.value
  | none => ""

/-- `getAPINameFromDimensions`. -/

def getAPINameFromDimensions (dims : Option (List Dimension)) : String :=
  match (safeDimensions dims).find? (fun d => goToLowerStr d.name == "api_name") with
  | some d => d.value
  | none => ""

/-- `handleSpecialResourceID(labels, m, namespace)`: the OBS service-scope and
operation overrides. The Go function mutates `labels` and returns the id; here
it returns the updated map alongside the id (`""` when it did nothing). -/

def handleSpecialResourceID (labels : GoMap) (m : BatchMetricData) (ns : String) :
    GoMap × String :=
  if ns == NamespaceOBS then
    let bucketName := getBucketNameFromDimensions m.dimensions
    let apiName := getAPINameFromDimensions m.dimensions
    if bucketName == "" && apiName == "" then
      (goInsert (goInsert (goInsert labels LabelResourceID ResourceIDTotal)
          LabelResourceName ResourceIDTotal) "scope" ResourceIDTotal,
        ResourceIDTotal)
    else if !(apiName == "") then
      (goInsert labels "operation" apiName, apiName)
    else (labels, "")
  else (labels, "")

/-- The scan-and-override part of `extractLabelsAndResourceID`: the generic
resource-id scan, with the OBS special handling applied only when the scan
found nothing. -/

def extractStep (m : BatchMetricData) (ns : String) : GoMap × String :=
  let labels := buildLabels ns m.dimensions
  let resourceID := findResourceID labels
  if resourceID == "" then handleSpecialResourceID labels m ns
  else (labels, resourceID)

/-- `extractLabelsAndResourceID(m, namespace)`: the scan result, the final
"unknown" fallback, and the `resource_id` label write. -/

def extractLabelsAndResourceID (m : BatchMetricData) (ns : String) :
    GoMap × String :=
  let step := extractStep m ns
  let resourceID := if step.2 == "" then ResourceIDUnknown else step.2
  (goInsert step.1 LabelResourceID resourceID, resourceID)

/-! ### EVS compound-id decoding (metrics.go: handleEVSIfNeeded, lookupEVSID;
evs_client.go: ListVolumes is modelled as the `volumes` environment value) -/

/-- `lookupEVSID(client, vmID, device)`: scan the listed volumes for the first
attachment matching `(vmID, "/dev/"+device)`; `("", "")` when the listing fails
or nothing matches. -/

def lookupEVSID (volumes : Except String (List Volume)) (vmID device : String) :
    String × String :=
  match volumes with
  | .error _ => ("", "")
  | .ok vl =>
    let devicePath := "/dev/" ++ device
    match vl.findSome? (fun vol =>
        if vol.attachments.any (fun a => a.serverId == vmID && a.device == devicePath)
        then some (vol.id, vol.name) else none) with
    | some p => p
    | none => ("", "")

/-- `handleEVSIfNeeded(labels, resourceID, namespace, client)`. The byte-level
`strings.LastIndex` of the Go code coincides with the character-level index for
the ASCII resource ids this code handles. -/

def handleEVSIfNeeded (labels : GoMap) (resourceID ns : String)
    (volumes : Except String (List Volume)) : GoMap × String :=
  if !strContains ns "EVS" then (labels, resourceID)
  else
    let lastDash := lastIndexOf resourceID.data '-'
    if lastDash ≤ 0 ∨ lastDash ≥ (resourceID.data.length : Int) - 1 then
      (labels, resourceID)
    else
      let vmID : String := ⟨resourceID.data.take lastDash.toNat⟩
      let device : String := ⟨resourceID.data.drop (lastDash.toNat + 1)⟩
      let r := lookupEVSID volumes vmID device
      if !(r.1 == "") then
        let labels := goInsert labels LabelResourceID r.1
        let labels := if !(r.2 == "") then goInsert labels "disk_name" r.2 else labels
        (labels, r.1)
      else (labels, resourceID)

/-! ### Enrichment environment

The remote collaborators (RMS inventory, OBS storage, EVS block storage) are
modelled as an environment record. `rms` is the outcome of
`client.RMS.GetResourceByID(resourceID, "")` per attempt index (the function is
called through `withRetry`); `obsTags` abstracts `client.OBS.GetBucketTags`
(whose internal cache is modelled separately below); `obsLocation` is the
`GetBucketLocation` result from which `GetBucketInfo` builds its map. -/

structure PipelineEnv where
  rmsPresent : Bool
  obsPresent : Bool
  rms : String → Nat → Except String GoMap
  obsTags : String → Except String GoMap
  obsLocation : String → Except String String
  volumes : Except String (List Volume)
  projectID : String
  projectName : String

/-- The configuration fields consulted by the enrichment code
(cfg.Global.ExportRMSLabels, cfg.Auth.DomainName, and the retry tuning). -/

structure GlobalCfg where
  exportRMSLabels : String → Bool
  domainName : String
  retry : RetryConfig

/-! ### OBS handling (metrics.go: handleOBSIfNeeded, enrichOBSBucketInfo;
obs_client.go: GetBucketInfo builds the `bucket_name`/`location` map) -/

/-- The map returned by `client.OBS.GetBucketInfo(bucketName)` on success
(obs_client.go lines 126-129). -/

def getBucketInfoModel (env : PipelineEnv) (bucketName : String) : Except String GoMap :=
  match env.obsLocation bucketName with
  | .ok loc => .ok [("bucket_name", bucketName), ("location", loc)]
  | .error e => .error e

/-- `enrichOBSBucketInfo(labels, bucketName, client)`: tags and info lookups are
independent; either may fail without affecting the other. -/

def enrichOBSBucketInfo (env : PipelineEnv) (labels : GoMap) (bucketName : String) :
    GoMap :=
  if !env.obsPresent then labels
  else
    let labels :=
      match env.obsTags bucketName with
      | .ok tags => tags.foldl (fun l t => goInsert l ("tag_" ++ t.1) t.2) labels
      | .error _ => labels
    match getBucketInfoModel env bucketName with
    | .ok info => info.foldl (fun l t => goInsert l t.1 t.2) labels
    | .error _ => labels

/-- `handleOBSIfNeeded(labels, m, namespace, client, retryConfig)`; the retry
config parameter is unused by the Go body and omitted here. -/

def handleOBSIfNeeded (env : PipelineEnv) (labels : GoMap) (m : BatchMetricData)
    (ns : String) : GoMap :=
  if !(ns == NamespaceOBS) then labels
  else
    let bucketName := getBucketNameFromDimensions m.dimensions
    if !(bucketName == "") then
      enrichOBSBucketInfo env (goInsert labels "bucket_name" bucketName) bucketName
    else
      match goGet labels "tenant_id" with
      | some tenantID =>
        if goGetD labels LabelResourceID == tenantID then
          goInsert (goInsert labels LabelResourceName "obs_service")
            LabelResourceID "obs_service"
        else goInsert labels LabelResourceName (goGetD labels LabelResourceID)
      | none => goInsert labels LabelResourceName (goGetD labels LabelResourceID)

/-! ### RMS enrichment (metrics.go: shouldSkipRMSLookup, shouldEnrichWithRMS,
applyRMSEnrichment, enrichWithRMSIfNeeded) -/

/-- `isOBSOperationName`. -/

def isOBSOperationName (value : String) : Bool :=
  OBSOperations.any (fun op => value == op)

/-- `shouldSkipRMSLookup`. -/

def shouldSkipRMSLookup (ns resourceID : String) : Bool :=
  if resourceID == "" || resourceID == ResourceIDUnknown then true
  else if ns == NamespaceOBS && isOBSOperationName resourceID then true
  else false

/-- `shouldEnrichWithRMS`. -/

def shouldEnrichWithRMS (env : PipelineEnv) (resourceID ns : String) : Bool :=
  env.rmsPresent && !(resourceID == "") && !(resourceID == ResourceIDUnknown) &&
    !shouldSkipRMSLookup ns resourceID

/-- `applyRMSEnrichment(labels, rmsResource, client, cfg)`. -/

def applyRMSEnrichment (env : PipelineEnv) (cfg : GlobalCfg) (labels : GoMap)
    (rmsResource : GoMap) : GoMap :=
  let labels :=
    if cfg.exportRMSLabels LabelResourceName then
      if !(goGetD rmsResource "name" == "") then
        goInsert labels LabelResourceName (goGetD rmsResource "name")
      else if !(goGetD rmsResource "resource_name" == "") then
        goInsert labels LabelResourceName (goGetD rmsResource "resource_name")
      else labels
    else labels
  let labels :=
    if cfg.exportRMSLabels LabelProjectID then
      goInsert labels LabelProjectID env.projectID
    else labels
  let labels :=
    if cfg.exportRMSLabels LabelProjectName then
      goInsert labels LabelProjectName env.projectName
    else labels
  let labels :=
    if cfg.exportRMSLabels "domain_name" then
      goInsert labels "domain_name" cfg.domainName
    else labels
  let labels :=
    if cfg.exportRMSLabels "tags" then
      rmsResource.foldl
        (fun l t =>
          if strStartsWith t.1 "tag_" && !(t.2 == "") then goInsert l t.1 t.2 else l)
        labels
    else labels
  if !(goGetD rmsResource "id" == "") then
    goInsert labels LabelResourceID (goGetD rmsResource "id")
  else labels

/-- `enrichWithRMSIfNeeded(labels, resourceID, namespace, client, cfg, retryConfig)`.
The Go `rmsResource == nil` guard cannot arise for an `.ok` map in the model. -/

def enrichWithRMSIfNeeded (env : PipelineEnv) (cfg : GlobalCfg) (labels : GoMap)
    (resourceID ns : String) : GoMap :=
  if !shouldEnrichWithRMS env resourceID ns then labels
  else
    match (withRetry (env.rms resourceID) cfg.retry
        ("get RMS resource info for " ++ resourceID)).1 with
    | .error _ => labels
    | .ok rmsResource => applyRMSEnrichment env cfg labels rmsResource

/-! ### Conversion to export records (metrics.go: createSingleExport,
convertDatapointsToExports) and the duplicate-prefix filter -/

/-- `createSingleExport(metricName, labels, unit, value, timestamp)`. -/

def createSingleExport (metricName : String) (labels : GoMap) (unit : String)
    (value : ℚ) (timestamp : Int) : List MetricExport :=
  let labelsWithUnit :=
    if !(unit == "") then goInsert (cloneMap labels) LabelUnit unit
    else cloneMap labels
  [⟨metricName, labelsWithUnit, value, unit, timestamp⟩]

/-- `convertDatapointsToExports(m, labels, unit)`; `now` is the `time.Now()`
assembly timestamp used when the sample list is empty. Sample timestamps are
converted from milliseconds to nanoseconds as in `time.Unix(0, ms*1e6)`. -/

def convertDatapointsToExports (m : BatchMetricData) (labels : GoMap)
    (unit : String) (now : Int) : List MetricExport :=
  if m.datapoints.isEmpty then createSingleExport m.metricName labels unit 0 now
  else
    m.datapoints.foldl
      (fun acc dp =>
        acc ++ createSingleExport m.metricName labels unit
          (dp.average.getD 0) (dp.timestamp * 1000000))
      []

/-- `shouldSkipMetric(metricName, namespace)`: AGT.ECS `id_`-prefixed metrics
are duplicates and are filtered (the Go body checks the prefix twice). -/

def shouldSkipMetric (metricName ns : String) : Bool :=
  if ns == NamespaceAGT then
    if strStartsWith metricName "id_" then true
    else ["id_"].any (fun p => strStartsWith metricName p)
  else false

/-! ### Per-scrape processing (metrics.go: processMetrics,
ExportMetricValuesBatch) -/

/-- The label pipeline of one per-data-point task in `processMetrics`:
resolution, EVS/OBS/RMS enrichment and the `resource_name` default. -/

def finalLabels (env : PipelineEnv) (cfg : GlobalCfg) (ns : String)
    (m : BatchMetricData) : GoMap :=
  let step := extractLabelsAndResourceID m ns
  let step2 := handleEVSIfNeeded step.1 step.2 ns env.volumes
  let labels := handleOBSIfNeeded env step2.1 m ns
  let labels := enrichWithRMSIfNeeded env cfg labels step2.2 ns
  if (goGet labels LabelResourceName).isSome then labels
  else goInsert labels LabelResourceName ResourceIDUnknown

/-- The body of one per-data-point task in `processMetrics`: the label
pipeline followed by conversion of the data point's samples. -/

def perMetric (env : PipelineEnv) (cfg : GlobalCfg) (ns : String)
    (m : BatchMetricData) (now : Int) : List MetricExport :=
  convertDatapointsToExports m (finalLabels env cfg ns m) (safeUnit m.unit) now

/-- `processMetrics(client, cfg, namespace, batchData)`: empty-named and
duplicate-prefixed metrics are skipped, every other data point is processed;
the concurrent accumulation is modelled in input order. -/

def processMetrics (env : PipelineEnv) (cfg : GlobalCfg) (ns : String)
    (batch : List BatchMetricData) (now : Int) : List MetricExport :=
  (batch.filter (fun m => !(m.metricName == "") && !shouldSkipMetric m.metricName ns)).flatMap
    (fun m => perMetric env cfg ns m now)

/-- The catalog/batch-fetch collaborators of `ExportMetricValuesBatch`:
`listDefs` abstracts `FetchAllMetricDefinitions` (per outer retry attempt) and
`batchQuery` abstracts `fetchMetricTimeSeries` (per retry attempt); the returned
`Option` mirrors the nullable `*[]BatchMetricData` of the batch response. -/

structure BatchEnv where
  listDefs : Nat → Except String Nat
  batchQuery : Nat → Except String (Option (List BatchMetricData))
  pipeline : PipelineEnv

/-- `ExportMetricValuesBatch(client, cfg, namespace, projectName)`: input
validation, catalog listing, batch fetch, then per-data-point processing. The
catalog result is abstracted to the number of listed definitions (`listDefs`),
which is all the orchestrator inspects before handing the definitions to the
batch query. -/

def exportMetricValuesBatch (env : BatchEnv) (cfg : GlobalCfg)
    (ns projectName : String) (now : Int) : List MetricExport :=
  if ns == "" || projectName == "" then []
  else
    match (withRetry env.listDefs cfg.retry
        ("fetch metrics for namespace " ++ ns)).1 with
    | .error _ => []
    | .ok numMetrics =>
      if numMetrics == 0 then []
      else
        match (withRetry env.batchQuery cfg.retry "fetch time series data").1 with
        | .error _ => []
        | .ok none => []
        | .ok (some batchData) =>
          if batchData.isEmpty then []
          else processMetrics env.pipeline cfg ns batchData now

/-! ### Prometheus bridge (CloudEyeCollector.Collect) -/

/-- `getValueOrDefault`. -/

def getValueOrDefault (value defaultValue : String) : String :=
  if value == "" then defaultValue else value

/-- `isConstantLabel`. -/

def isConstantLabel (key : String) : Bool :=
  [LabelResourceID, LabelResourceName, LabelUnit].any (fun l => key == l)

/-- `createMetricName(namespace, metricName)`: lower-cased last
namespace segment joined to the lower-cased metric name. -/

def splitOnDot (l : List Char) : List (List Char) :=
  l.foldr
    (fun ch acc =>
      if ch == '.' then [] :: acc
      else
        match acc with
        | [] => [[ch]]
        | a :: as => (ch :: a) :: as)
    [[]]

def createMetricName (ns metricName : String) : String :=
  let service : String := goToLowerStr ⟨(splitOnDot ns.data).getLastD []⟩
  service ++ "_" ++ goToLowerStr metricName

/-- One published Prometheus series, with the fields that determine the
deduplication key retained (`rawName` is `m.MetricName`). -/

structure Published where
  metricName : String
  resourceID : String
  resourceName : String
  unit : String
  rawName : String
  varLabels : GoMap
  value : ℚ
deriving DecidableEq

/-- The composite deduplication key built in `Collect`
(`fmt.Sprintf("%s-%s-%s-%s-%s", ...)`). -/

def dedupKey (ns : String) (m : MetricExport) : String :=
  createMetricName ns m.metricName ++ "-" ++
    getValueOrDefault (goGetD m.labels LabelResourceID) ResourceIDUnknown ++ "-" ++
    getValueOrDefault (goGetD m.labels LabelResourceName) ResourceIDUnknown ++ "-" ++
    getValueOrDefault m.unit ResourceIDUnknown ++ "-" ++ m.metricName

/-- The constant-label extraction and publication of one export record. -/

def publishOne (ns : String) (m : MetricExport) : Published :=
  { metricName := createMetricName ns m.metricName
    resourceID := getValueOrDefault (goGetD m.labels LabelResourceID) ResourceIDUnknown
    resourceName := getValueOrDefault (goGetD m.labels LabelResourceName) ResourceIDUnknown
    unit := getValueOrDefault m.unit ResourceIDUnknown
    rawName := m.metricName
    varLabels := m.labels.filter (fun p => !isConstantLabel p.1)
    value := m.value }

/-- The key recomputed from a published series; agrees with `dedupKey` of the
record it came from. -/

def pubKey (p : Published) : String :=
  p.metricName ++ "-" ++ p.resourceID ++ "-" ++ p.resourceName ++ "-" ++
    p.unit ++ "-" ++ p.rawName

/-- The per-namespace loop body of `Collect`: `seenMetrics` grows per published
record, later records with an already-seen key are dropped. -/

def collectLoop (ns : String) : List String → List MetricExport → List Published
  | _, [] => []
  | seen, m :: rest =>
    let key := dedupKey ns m
    if key ∈ seen then collectLoop ns seen rest
    else publishOne ns m :: collectLoop ns (key :: seen) rest

/-- The per-namespace publication pass of `Collect`. -/

def collectNs (ns : String) (metricData : List MetricExport) : List Published :=
  collectLoop ns [] metricData

/-! ### TTL caches (obs_client.go and the RMS client cache of rms_client.go,
src/unnamed/part_004) -/

/-- A cached entry: payload map plus the `time.Now()` of the write. -/

structure CacheEntry where
  data : GoMap
  timestamp : Int
deriving DecidableEq

/-- The shared `sync.Map`, modelled as an association list; times in seconds. -/

def TtlCache : Type := List (String × CacheEntry)

instance : DecidableEq TtlCache := by
  unfold TtlCache
  infer_instance

/-- Both caches use a 15-minute TTL (`rmsCacheTTL`, `obsTagCacheTTL`). -/

def cacheTTLSeconds : Int := 15 * 60

/-- `sync.Map.Load`. -/

def cacheLoad : TtlCache → String → Option CacheEntry
  | [], _ => none
  | (k', e) :: rest, k => if k' == k then some e else cacheLoad rest k

/-- `sync.Map.Store` (overwrite). -/

def cacheStore : TtlCache → String → CacheEntry → TtlCache
  | [], k, e => [(k, e)]
  | (k', e') :: rest, k, e =>
    if k' == k then (k', e) :: rest else (k', e') :: cacheStore rest k e

/-- The cache-check step of `GetBucketTags` (obs_client.go lines 53-61): a hit
is returned only while `time.Since(timestamp) < TTL`; a stale entry is treated
as a miss and left in place. -/

def obsCacheLookup (cache : TtlCache) (key : String) (now : Int) : Option GoMap :=
  match cacheLoad cache key with
  | some cached => if now - cached.timestamp < cacheTTLSeconds then some cached.data else none
  | none => none

/-- The cache-check step of `GetResourceByID` (part_004 lines 80-91), identical
in shape to the OBS one. -/

def rmsCacheLookup (cache : TtlCache) (key : String) (now : Int) : Option GoMap :=
  match cacheLoad cache key with
  | some cached => if now - cached.timestamp < cacheTTLSeconds then some cached.data else none
  | none => none

/-- The OBS error type as inspected by `GetBucketTags`: a typed `obs.ObsError`
with code and HTTP status, or any other error. -/

inductive ObsApiErr
  | obsError (code : String) (status : Int)
  | generic (msg : String)
deriving DecidableEq

/-- `GetBucketTags(bucketName)` (obs_client.go lines 45-97) over an explicit
cache state; `api` is the `GetBucketTagging` outcome on a cache miss. Returns
the result together with the cache state after the call. -/

def getBucketTags (cache : TtlCache) (bucketName : String) (now : Int)
    (api : Except ObsApiErr (List (String × String))) :
    Except String GoMap × TtlCache :=
  if bucketName == "" then (.error "bucket name cannot be empty", cache)
  else
    let cacheKey := "bucket:" ++ bucketName
    match obsCacheLookup cache cacheKey now with
    | some tags => (.ok tags, cache)
    | none =>
      match api with
      | .error (.obsError code status) =>
        if code == "NoSuchTagSet" || status == 404 then
          (.ok [], cacheStore cache cacheKey ⟨[], now⟩)
        else (.error ("failed to get bucket tags for " ++ bucketName), cache)
      | .error (.generic _) =>
        (.error ("failed to get bucket tags for " ++ bucketName), cache)
      | .ok outTags =>
        let tags := outTags.foldl
          (fun acc t => if t.1 == "" then acc else goInsert acc t.1 t.2) []
        (.ok tags, cacheStore cache cacheKey ⟨tags, now⟩)

def c2Rc : RetryConfig := ⟨2, 1, 3, 2, RetryableErrors⟩

def c2Op : Nat → Except String Nat := fun _ => .error "429"

def c2OpOk : Nat → Except String Nat := fun _ => .ok 7

def c6Rc : RetryConfig := ⟨5, 1, 3, 2, RetryableErrors⟩

def c1Cache : TtlCache := [("bucket:b", ⟨[("env", "prod")], 0⟩)]

/-- The label map attached to every export of one data point. -/

def labelsWithUnitOf (labels : GoMap) (unit : String) : GoMap :=
  if !(unit == "") then goInsert labels LabelUnit unit else labels

def c7EmptyDp : BatchMetricData := ⟨"cpu_util", some [⟨"instance_id", "vm-1"⟩], some "%", []⟩

def c7TwoDp : BatchMetricData :=
  ⟨"cpu_util", some [⟨"instance_id", "vm-1"⟩], some "%",
    [⟨some 1, 1000⟩, ⟨some 2, 2000⟩]⟩

def c10Dp : BatchMetricData :=
  ⟨"cpu_util", some [⟨"instance_id", "vm-1"⟩], some "%",
    [⟨some 1, 1000⟩, ⟨some 2, 2000⟩, ⟨none, 3000⟩]⟩

def c3Volumes : Except String (List Volume) :=
  .ok [⟨"vol-1", "", [⟨"i-12345", "/dev/vdb"⟩]⟩]

def c3VolumesW : Except String (List Volume) :=
  .ok [⟨"vol-1", "disk1", [⟨"i-12345", "/dev/vdb"⟩]⟩]

def c5Dp : BatchMetricData := ⟨"req_count", some [⟨"instance_id", "vm-1"⟩], none, []⟩

def c5TotalDp : BatchMetricData := ⟨"req_count", some [⟨"tenant_id", "t-1"⟩], none, []⟩

def c5ApiDp : BatchMetricData := ⟨"req_count", some [⟨"api_name", "unknown"⟩], none, []⟩

/-! ### Label invariants for the enrichment pipeline -/

/-- The map carries a non-empty `resource_id` label. -/

def ridOk (labels : GoMap) : Prop :=
  ∃ v, goGet labels LabelResourceID = some v ∧ v ≠ ""

/-- Any `resource_name` label the map carries is non-empty. -/

def rnSafe (labels : GoMap) : Prop :=
  ∀ w, goGet labels LabelResourceName = some w → w ≠ ""

def c9Env : PipelineEnv :=
  ⟨false, false, fun _ _ => .error "rms down", fun _ => .error "obs down",
    fun _ => .error "obs down", .ok [], "pid-1", "project-a"⟩

def c9Cfg : GlobalCfg := ⟨fun _ => false, "domain-a", ⟨2, 1, 3, 2, RetryableErrors⟩⟩

def c9Dp : BatchMetricData :=
  ⟨"cpu_util", some [⟨"instance_id", "vm-1"⟩, ⟨"resource_name", ""⟩], some "%",
    [⟨some 1, 1000⟩]⟩

def c9WDp : BatchMetricData :=
  ⟨"cpu_util", some [⟨"instance_id", "vm-1"⟩], some "%", [⟨some 1, 1000⟩]⟩

def c9We : MetricExport :=
  ⟨"cpu_util",
    [("namespace", "SYS.ECS"), ("instance_id", "vm-1"), ("resource_id", "vm-1"),
      ("resource_name", "unknown"), ("unit", "%")],
    1, "%", 1000000000⟩

def c8Pipe : PipelineEnv :=
  ⟨false, false, fun _ _ => .error "down", fun _ => .error "down",
    fun _ => .error "down", .ok [], "p", "pn"⟩

def c8Rc : RetryConfig := ⟨1, 1, 3, 2, RetryableErrors⟩

def c8Cfg : GlobalCfg := ⟨fun _ => false, "dom", c8Rc⟩

def c8Env : BatchEnv := ⟨fun _ => .error "boom", fun _ => .error "boom", c8Pipe⟩

def c8Batch : List BatchMetricData :=
  [⟨"cpu_util", some [⟨"instance_id", "vm-1"⟩], some "%",
    [⟨some 1, 1000⟩, ⟨some 2, 2000⟩]⟩]

/-! ### Theorems -/

theorem goGet_goInsert_same (m : GoMap) (k v : String) :
    goGet (goInsert m k v) k = some v := by
  induction m with
  | nil => simp [goInsert, goGet]
  | cons hd tl ih =>
    by_cases h : hd.1 = k
    · simp [goInsert, goGet, h]
    · simp only [goInsert]
      rw [show (hd.1 == k) = false by simpa using h]
      simpa [goGet, h] using ih

theorem goGet_goInsert_ne (m : GoMap) (k k' v : String) (h : k' ≠ k) :
    goGet (goInsert m k v) k' = goGet m k' := by
  induction m with
  | nil =>
    simp [goInsert, goGet, show (k == k') = false by simpa using (Ne.symm h)]
  | cons hd tl ih =>
    by_cases hk : hd.1 = k
    · subst hk
      simp [goInsert, goGet, show (hd.1 == k') = false by simpa using fun e => h e.symm]
    · simp only [goInsert]
      rw [show (hd.1 == k) = false by simpa using hk]
      by_cases hk' : hd.1 = k'
      · simp [goGet, hk']
      · simp only [goGet]
        rw [show (hd.1 == k') = false by simpa using hk']
        exact ih

theorem ratPow_eq_pow (q : ℚ) (n : Nat) : ratPow q n = q ^ n := by
  induction n with
  | zero => simp [ratPow]
  | succ n ih => simp [ratPow, pow_succ, ih]

theorem ratLtB_iff (a b : ℚ) : ratLtB a b = true ↔ a < b := by
  simp [ratLtB, Rat.lt_def]

/-! ### Supporting lemmas: strings and retries -/

theorem listStartsWith_map_toLower (p s : List Char)
    (h : listStartsWith p s = true) :
    listStartsWith (p.map Char.toLower) (s.map Char.toLower) = true := by
  induction p generalizing s with
  | nil => simp [listStartsWith]
  | cons a as ih =>
    cases s with
    | nil => simp [listStartsWith] at h
    | cons b bs =>
      simp only [listStartsWith, Bool.and_eq_true, beq_iff_eq] at h
      obtain ⟨hab, hrest⟩ := h
      subst hab
      simp only [List.map_cons, listStartsWith]
      simp [ih bs hrest]

theorem listContainsSub_map_toLower (s p : List Char)
    (h : listContainsSub s p = true) :
    listContainsSub (s.map Char.toLower) (p.map Char.toLower) = true := by
  induction s with
  | nil =>
    simp only [listContainsSub, Bool.or_eq_true] at h ⊢
    rcases h with h | h
    · exact Or.inl (listStartsWith_map_toLower _ _ h)
    · exact absurd h (by simp)
  | cons a as ih =>
    simp only [listContainsSub, Bool.or_eq_true] at h
    rcases h with h | h
    · exact by
        simp only [List.map_cons, listContainsSub, Bool.or_eq_true]
        exact Or.inl (listStartsWith_map_toLower _ _ h)
    · exact by
        simp only [List.map_cons, listContainsSub, Bool.or_eq_true]
        exact Or.inr (ih h)

/-- The backoff of the Go code (cap at `maxBackoff`) is exactly the `min` of
the spec formula. -/

theorem goBackoffDuration_eq_min (rc : RetryConfig) (k : Nat) :
    goBackoffDuration rc k =
      min (rc.initialBackoff * rc.backoffMultiplier ^ k) rc.maxBackoff := by
  unfold goBackoffDuration
  rw [ratPow_eq_pow]
  cases hlt : ratLtB rc.maxBackoff (rc.initialBackoff * rc.backoffMultiplier ^ k) with
  | true =>
    have h := (ratLtB_iff _ _).mp hlt
    simp only [hlt, if_true]
    exact (min_eq_right (le_of_lt h)).symm
  | false =>
    have h : ¬ rc.maxBackoff < rc.initialBackoff * rc.backoffMultiplier ^ k := by
      intro hc
      rw [(ratLtB_iff _ _).mpr hc] at hlt
      simp at hlt
    simp only [hlt, if_false]
    exact (min_eq_left (not_lt.mp h)).symm

/-- The trace of sleeps from attempt `a` is an initial run of the backoff
schedule starting at index `a`, for any fuel. -/

theorem withRetryGo_sleeps_eq {α : Type} (op : Nat → Except String α)
    (rc : RetryConfig) (name : String) :
    ∀ fuel attempt, ∃ n,
      (withRetryGo op rc name fuel attempt).2 =
        (List.range n).map (fun j => goBackoffDuration rc (attempt + j)) := by
  intro fuel
  induction fuel with
  | zero =>
    intro attempt
    refine ⟨0, ?_⟩
    unfold withRetryGo
    cases hop : op attempt with
    | ok v => simp [hop]
    | error e =>
      cases hsr : shouldRetry rc e attempt with
      | false => simp [hop, hsr]
      | true => simp [hop, hsr]
  | succ f ih =>
    intro attempt
    cases hop : op attempt with
    | ok v =>
      refine ⟨0, ?_⟩
      unfold withRetryGo
      simp [hop]
    | error e =>
      cases hsr : shouldRetry rc e attempt with
      | false =>
        refine ⟨0, ?_⟩
        unfold withRetryGo
        simp [hop, hsr]
      | true =>
        obtain ⟨n, hn⟩ := ih (attempt + 1)
        refine ⟨n + 1, ?_⟩
        have : (withRetryGo op rc name (f + 1) attempt).2 =
            goBackoffDuration rc attempt :: (withRetryGo op rc name f (attempt + 1)).2 := by
          conv_lhs => unfold withRetryGo
          simp [hop, hsr]
        rw [this, hn, List.range_succ_eq_map, List.map_cons, List.map_map]
        refine congrArg₂ _ (by simp) ?_
        refine List.map_congr_left ?_
        intro j _
        simp [Nat.add_assoc, Nat.add_comm 1 j]

/-- Lowering a string preserves containment of an already-lowercase pattern. -/

theorem strContains_toLower_of_contains (s pat : String)
    (hpat : pat.data.map Char.toLower = pat.data) (h : strContains s pat = true) :
    strContains (goToLowerStr s) pat = true := by
  unfold strContains at h ⊢
  have hdata : (goToLowerStr s).data = s.data.map Char.toLower := rfl
  rw [hdata, ← hpat]
  exact listContainsSub_map_toLower _ _ h

/-- An error text matching no retryable signature is classified non-retryable. -/

theorem shouldRetry_eq_false_of_no_sig (rc : RetryConfig) (err : String) (attempt : Nat)
    (hcfg : rc.retryableErrors = RetryableErrors)
    (hall : ∀ sig ∈ RetryableErrors, strContains (goToLowerStr err) sig = false) :
    shouldRetry rc err attempt = false := by
  unfold shouldRetry
  by_cases hm : attempt ≥ rc.maxRetries
  · simp [hm]
  · simp only [hm, if_false]
    rw [hcfg]
    refine List.any_eq_false.mpr ?_
    intro sig hsig
    simp [hall sig hsig]

/-- Claim C2: for every retry attempt `k` (0-based) the delay slept before that
retry equals `min(initialBackoff * multiplier^k, maxBackoff)`, and no delay is
applied before the first attempt of an operation. -/

theorem c2_backoff_formula {α : Type} (op : Nat → Except String α) (rc : RetryConfig)
    (name : String) :
    (∀ k (h : k < ((withRetry op rc name).2).length),
        ((withRetry op rc name).2)[k] =
          min (rc.initialBackoff * rc.backoffMultiplier ^ k) rc.maxBackoff) ∧
    (∀ v : α, op 0 = .ok v → (withRetry op rc name).2 = []) := by
  constructor
  · intro k h
    obtain ⟨n, hn⟩ := withRetryGo_sleeps_eq op rc name rc.maxRetries 0
    have hsl : (withRetry op rc name).2 =
        (List.range n).map (fun j => goBackoffDuration rc (0 + j)) := hn
    rw [List.getElem_of_eq hsl]
    have hk : k < n := by
      have := h
      rw [hsl] at this
      simpa using this
    simp [goBackoffDuration_eq_min]
  · intro v hv
    show (withRetryGo op rc name rc.maxRetries 0).2 = []
    conv_lhs => unfold withRetryGo
    simp [hv]

theorem c2_backoff_formula_witness :
    ((withRetry c2Op c2Rc "op").2).length = 2 ∧
    ((withRetry c2Op c2Rc "op").2)[0]? =
      some (min (c2Rc.initialBackoff * c2Rc.backoffMultiplier ^ 0) c2Rc.maxBackoff) ∧
    (withRetry c2OpOk c2Rc "op").2 = [] := by
  refine ⟨by decide, ?_, (c2_backoff_formula c2OpOk c2Rc "op").2 7 rfl⟩
  have hlen : 0 < ((withRetry c2Op c2Rc "op").2).length := by decide
  rw [List.getElem?_eq_getElem hlen]
  exact congrArg some ((c2_backoff_formula c2Op c2Rc "op").1 0 hlen)

/-- Claim C6: an error containing "429" or "timeout" is classified retryable
exactly while the attempt count is below `maxRetries`; an error matching no
retryable signature is never retried (one operation call, no sleeps), at any
attempt count. -/

theorem c6_retry_classification (rc : RetryConfig) (err : String) (attempt : Nat)
    (hcfg : rc.retryableErrors = RetryableErrors) :
    ((strContains err "429" = true ∨ strContains err "timeout" = true) →
      shouldRetry rc err attempt = decide (attempt < rc.maxRetries)) ∧
    ((∀ sig ∈ RetryableErrors, strContains (goToLowerStr err) sig = false) →
      shouldRetry rc err attempt = false) ∧
    (∀ {α : Type} (op : Nat → Except String α) (name : String) (fuel : Nat) (e0 : String),
      op 0 = .error e0 →
      (∀ sig ∈ RetryableErrors, strContains (goToLowerStr e0) sig = false) →
      withRetryGo op rc name fuel 0 = (.error (wrapRetryErr name rc e0), [])) := by
  refine ⟨?_, ?_, ?_⟩
  · intro hsig
    unfold shouldRetry
    by_cases hm : attempt ≥ rc.maxRetries
    · simp [hm, Nat.not_lt.mpr hm]
    · have hlt : attempt < rc.maxRetries := Nat.lt_of_not_le hm
      simp only [hm, if_false]
      rw [hcfg]
      have hmem : ∃ sig ∈ RetryableErrors,
          strContains (goToLowerStr err) sig = true := by
        rcases hsig with h | h
        · exact ⟨"429", by simp [RetryableErrors],
            strContains_toLower_of_contains err "429" (by decide) h⟩
        · exact ⟨"timeout", by simp [RetryableErrors],
            strContains_toLower_of_contains err "timeout" (by decide) h⟩
      obtain ⟨sig, hsigmem, hc⟩ := hmem
      rw [List.any_eq_true.mpr ⟨sig, hsigmem, hc⟩]
      simp [hlt]
  · intro hall
    exact shouldRetry_eq_false_of_no_sig rc err attempt hcfg hall
  · intro α op name fuel e0 hop hall
    have hsr : shouldRetry rc e0 0 = false :=
      shouldRetry_eq_false_of_no_sig rc e0 0 hcfg hall
    conv_lhs => unfold withRetryGo
    simp [hop, hsr]

theorem c6_retry_classification_witness :
    shouldRetry c6Rc "http 429 too many requests" 2 = decide (2 < c6Rc.maxRetries) ∧
    shouldRetry c6Rc "boom" 7 = false ∧
    withRetryGo (fun _ => (.error "boom" : Except String Nat)) c6Rc "op" 5 0 =
      (.error (wrapRetryErr "op" c6Rc "boom"), []) := by
  refine ⟨(c6_retry_classification c6Rc "http 429 too many requests" 2 rfl).1
      (Or.inl (by decide)),
    (c6_retry_classification c6Rc "boom" 7 rfl).2.1 (by decide),
    (c6_retry_classification c6Rc "boom" 0 rfl).2.2
      (fun _ => (.error "boom" : Except String Nat)) "op" 5 "boom" rfl (by decide)⟩

theorem cacheLoad_cacheStore_same (c : TtlCache) (k : String) (e : CacheEntry) :
    cacheLoad (cacheStore c k e) k = some e := by
  induction c with
  | nil => simp [cacheStore, cacheLoad]
  | cons hd tl ih =>
    by_cases h : hd.1 = k
    · simp [cacheStore, cacheLoad, h]
    · simp only [cacheStore]
      rw [show (hd.1 == k) = false by simpa using h]
      simp only [cacheLoad]
      rw [show (hd.1 == k) = false by simpa using h]
      exact ih

/-- Claim C1 (amended): a `get` on an entry at least TTL old returns a miss —
the stale value is never served — but the lookup leaves the stale entry in
place (it is only overwritten by a later successful store or evicted by the
background sweeper); a `get` within the TTL returns the stored value
unchanged; a `set` for the same key resets the entry's write time to the time
of the set. This holds for both the RMS resource cache and the OBS bucket
cache. -/

theorem c1_cache_ttl_amended (cache : TtlCache) (key : String) (now : Int) :
    (∀ e, cacheLoad cache key = some e → cacheTTLSeconds ≤ now - e.timestamp →
        obsCacheLookup cache key now = none ∧ rmsCacheLookup cache key now = none) ∧
    (∀ e, cacheLoad cache key = some e → now - e.timestamp < cacheTTLSeconds →
        obsCacheLookup cache key now = some e.data ∧
          rmsCacheLookup cache key now = some e.data) ∧
    (∀ d, cacheLoad (cacheStore cache key ⟨d, now⟩) key = some ⟨d, now⟩) := by
  refine ⟨?_, ?_, ?_⟩
  · intro e he hstale
    constructor
    · unfold obsCacheLookup
      rw [he]
      simp [not_lt.mpr hstale]
    · unfold rmsCacheLookup
      rw [he]
      simp [not_lt.mpr hstale]
  · intro e he hfresh
    constructor
    · unfold obsCacheLookup
      rw [he]
      simp [hfresh]
    · unfold rmsCacheLookup
      rw [he]
      simp [hfresh]
  · intro d
    exact cacheLoad_cacheStore_same cache key ⟨d, now⟩

/-- Claim C1 counterexample: with an entry written at time 0 and a failing
remote fetch, a `GetBucketTags` at time `TTL + 1` treats the entry as a miss
yet leaves the stale entry in the cache — refuting "the stale entry is removed
by the lookup itself". -/

theorem c1_counterexample :
    obsCacheLookup c1Cache "bucket:b" 901 = none ∧
    getBucketTags c1Cache "b" 901 (.error (.generic "boom")) =
      (.error "failed to get bucket tags for b", c1Cache) ∧
    cacheLoad ((getBucketTags c1Cache "b" 901 (.error (.generic "boom"))).2) "bucket:b" =
      some ⟨[("env", "prod")], 0⟩ := by
  exact ⟨rfl, rfl, rfl⟩

theorem c1_cache_ttl_amended_witness :
    (obsCacheLookup c1Cache "bucket:b" 901 = none ∧
      rmsCacheLookup c1Cache "bucket:b" 901 = none) ∧
    (obsCacheLookup c1Cache "bucket:b" 100 = some [("env", "prod")] ∧
      rmsCacheLookup c1Cache "bucket:b" 100 = some [("env", "prod")]) ∧
    cacheLoad (cacheStore c1Cache "bucket:b" ⟨[("env", "stage")], 50⟩) "bucket:b" =
      some ⟨[("env", "stage")], 50⟩ := by
  refine ⟨(c1_cache_ttl_amended c1Cache "bucket:b" 901).1 ⟨[("env", "prod")], 0⟩ rfl
      (by decide),
    (c1_cache_ttl_amended c1Cache "bucket:b" 100).2.1 ⟨[("env", "prod")], 0⟩ rfl
      (by decide),
    (c1_cache_ttl_amended c1Cache "bucket:b" 50).2.2 [("env", "stage")]⟩

theorem convert_foldl_length (name : String) (labels : GoMap) (unit : String) :
    ∀ (dps : List Datapoint) (acc : List MetricExport),
      (List.foldl
        (fun acc dp =>
          acc ++ createSingleExport name labels unit (dp.average.getD 0)
            (dp.timestamp * 1000000)) acc dps).length = acc.length + dps.length := by
  intro dps
  induction dps with
  | nil => intro acc; simp
  | cons dp rest ih =>
    intro acc
    simp only [List.foldl_cons]
    rw [ih]
    simp [createSingleExport]
    omega

theorem mem_foldl_append {β : Type} (g : β → List MetricExport) :
    ∀ (l : List β) (acc : List MetricExport) (e : MetricExport),
      e ∈ List.foldl (fun a x => a ++ g x) acc l → e ∈ acc ∨ ∃ x ∈ l, e ∈ g x := by
  intro l
  induction l with
  | nil => intro acc e h; exact Or.inl h
  | cons x rest ih =>
    intro acc e h
    simp only [List.foldl_cons] at h
    rcases ih (acc ++ g x) e h with hacc | ⟨y, hy, hey⟩
    · rcases List.mem_append.mp hacc with h1 | h2
      · exact Or.inl h1
      · exact Or.inr ⟨x, List.mem_cons_self x rest, h2⟩
    · exact Or.inr ⟨y, List.mem_cons_of_mem x hy, hey⟩

/-- Every export assembled from one data point carries the data point's metric
name, the shared label map and the shared unit. -/

theorem mem_convertDatapointsToExports (m : BatchMetricData) (labels : GoMap)
    (unit : String) (now : Int) (e : MetricExport)
    (h : e ∈ convertDatapointsToExports m labels unit now) :
    e.metricName = m.metricName ∧ e.labels = labelsWithUnitOf labels unit ∧
      e.unit = unit := by
  unfold convertDatapointsToExports at h
  by_cases hdp : m.datapoints.isEmpty
  · rw [if_pos hdp] at h
    simp only [createSingleExport, List.mem_singleton] at h
    subst h
    exact ⟨rfl, rfl, rfl⟩
  · rw [if_neg hdp] at h
    rcases mem_foldl_append _ m.datapoints [] e h with hacc | ⟨dp, _, hdpmem⟩
    · simp at hacc
    · simp only [createSingleExport, List.mem_singleton] at hdpmem
      subst hdpmem
      exact ⟨rfl, rfl, rfl⟩

/-- Claim C7: a data point with an empty sample list yields exactly one export
record, with value 0 and the assembly-time timestamp; a data point with
`n ≥ 1` samples yields exactly `n` records. -/

theorem c7_zero_sample_export (m : BatchMetricData) (labels : GoMap)
    (unit : String) (now : Int) :
    (m.datapoints = [] →
      ∃ e, convertDatapointsToExports m labels unit now = [e] ∧
        e.value = 0 ∧ e.timestamp = now ∧ e.metricName = m.metricName) ∧
    (1 ≤ m.datapoints.length →
      (convertDatapointsToExports m labels unit now).length = m.datapoints.length) := by
  constructor
  · intro hdp
    unfold convertDatapointsToExports
    rw [hdp]
    simp only [List.isEmpty_nil, if_true]
    exact ⟨_, rfl, rfl, rfl, rfl⟩
  · intro hlen
    unfold convertDatapointsToExports
    have hne : m.datapoints.isEmpty = false := by
      cases hdp : m.datapoints with
      | nil => rw [hdp] at hlen; simp at hlen
      | cons a l => simp [hdp]
    rw [if_neg (by simp [hne])]
    rw [convert_foldl_length]
    simp

theorem c7_zero_sample_export_witness :
    (∃ e, convertDatapointsToExports c7EmptyDp [("namespace", "SYS.ECS")] "%" 42 = [e] ∧
      e.value = 0 ∧ e.timestamp = 42 ∧ e.metricName = c7EmptyDp.metricName) ∧
    (convertDatapointsToExports c7TwoDp [("namespace", "SYS.ECS")] "%" 42).length =
      c7TwoDp.datapoints.length :=
  ⟨(c7_zero_sample_export c7EmptyDp [("namespace", "SYS.ECS")] "%" 42).1 rfl,
   (c7_zero_sample_export c7TwoDp [("namespace", "SYS.ECS")] "%" 42).2 (by decide)⟩

theorem pubKey_publishOne (ns : String) (m : MetricExport) :
    pubKey (publishOne ns m) = dedupKey ns m := rfl

/-- The published records with a given key are exactly the image of the first
input record with that key, provided the key is not already seen. -/

theorem collectLoop_filter (ns : String) :
    ∀ (data : List MetricExport) (seen : List String) (k : String),
      (collectLoop ns seen data).filter (fun p => pubKey p == k) =
        if k ∈ seen then []
        else ((data.find? (fun m => dedupKey ns m == k)).map (publishOne ns)).toList := by
  intro data
  induction data with
  | nil =>
    intro seen k
    simp [collectLoop]
  | cons m rest ih =>
    intro seen k
    by_cases hkey : dedupKey ns m = k
    · subst hkey
      by_cases hseen : dedupKey ns m ∈ seen
      · rw [show collectLoop ns seen (m :: rest) = collectLoop ns seen rest by
          simp [collectLoop, hseen]]
        rw [ih]
        have hfind : List.find? (fun x => dedupKey ns x == dedupKey ns m) (m :: rest) =
            some m := List.find?_cons_of_pos _ (by simp)
        simp [hseen]
      · rw [show collectLoop ns seen (m :: rest) =
            publishOne ns m :: collectLoop ns (dedupKey ns m :: seen) rest by
          simp [collectLoop, hseen]]
        rw [List.filter_cons_of_pos (by simp [pubKey_publishOne])]
        rw [ih]
        have hfind : List.find? (fun x => dedupKey ns x == dedupKey ns m) (m :: rest) =
            some m := List.find?_cons_of_pos _ (by simp)
        simp [hseen, hfind]
    · have hfind : List.find? (fun x => dedupKey ns x == k) (m :: rest) =
          List.find? (fun x => dedupKey ns x == k) rest :=
        List.find?_cons_of_neg _ (by simp [hkey])
      by_cases hseen : dedupKey ns m ∈ seen
      · rw [show collectLoop ns seen (m :: rest) = collectLoop ns seen rest by
          simp [collectLoop, hseen]]
        rw [ih, hfind]
      · rw [show collectLoop ns seen (m :: rest) =
            publishOne ns m :: collectLoop ns (dedupKey ns m :: seen) rest by
          simp [collectLoop, hseen]]
        rw [List.filter_cons_of_neg (by simp [pubKey_publishOne, hkey])]
        rw [ih, hfind]
        have hmem : (k ∈ dedupKey ns m :: seen) ↔ (k ∈ seen) := by
          simp only [List.mem_cons]
          constructor
          · intro h
            rcases h with h | h
            · exact absurd h.symm hkey
            · exact h
          · exact Or.inr
        by_cases hk : k ∈ seen
        · simp [hk, hmem]
        · simp [hk, hmem]

/-- Claim C4: within one scrape, the published records carrying a given
composite key are exactly one — the image of the first export record with that
key; every later record with the same key is dropped. -/

theorem c4_dedup_first_wins (ns : String) (data : List MetricExport) (k : String) :
    (collectNs ns data).filter (fun p => pubKey p == k) =
      ((data.find? (fun m => dedupKey ns m == k)).map (publishOne ns)).toList := by
  unfold collectNs
  rw [collectLoop_filter]
  simp

theorem collectLoop_eq_nil_of_seen (ns : String) :
    ∀ (l : List MetricExport) (seen : List String),
      (∀ x ∈ l, dedupKey ns x ∈ seen) → collectLoop ns seen l = [] := by
  intro l
  induction l with
  | nil => intro seen _; simp [collectLoop]
  | cons x rest ih =>
    intro seen h
    have hx := h x (List.mem_cons_self x rest)
    rw [show collectLoop ns seen (x :: rest) = collectLoop ns seen rest by
      simp [collectLoop, hx]]
    exact ih seen (fun y hy => h y (List.mem_cons_of_mem x hy))

/-- Claim C10: all records assembled from one data point with at least two
samples share the same deduplication key (the key has no timestamp or value
component), so the scrape adapter publishes exactly one of them; the remaining
samples are dropped. -/

theorem c10_sample_dedup (ns : String) (m : BatchMetricData) (labels : GoMap)
    (unit : String) (now : Int) (h2 : 2 ≤ m.datapoints.length) :
    (∀ e ∈ convertDatapointsToExports m labels unit now,
      ∀ e' ∈ convertDatapointsToExports m labels unit now,
        dedupKey ns e = dedupKey ns e') ∧
    (collectNs ns (convertDatapointsToExports m labels unit now)).length = 1 := by
  have hkeys : ∀ e ∈ convertDatapointsToExports m labels unit now,
      ∀ e' ∈ convertDatapointsToExports m labels unit now,
        dedupKey ns e = dedupKey ns e' := by
    intro e he e' he'
    obtain ⟨hn, hlab, hu⟩ := mem_convertDatapointsToExports m labels unit now e he
    obtain ⟨hn', hlab', hu'⟩ := mem_convertDatapointsToExports m labels unit now e' he'
    unfold dedupKey
    rw [hn, hn', hlab, hlab', hu, hu']
  refine ⟨hkeys, ?_⟩
  have hlen : (convertDatapointsToExports m labels unit now).length =
      m.datapoints.length := by
    unfold convertDatapointsToExports
    have hne : m.datapoints.isEmpty = false := by
      cases hdp : m.datapoints with
      | nil => rw [hdp] at h2; simp at h2
      | cons a l => simp [hdp]
    rw [if_neg (by simp [hne])]
    rw [convert_foldl_length]
    simp
  cases hl : convertDatapointsToExports m labels unit now with
  | nil =>
    rw [hl] at hlen
    simp at hlen
    omega
  | cons e rest =>
    unfold collectNs
    rw [show collectLoop ns [] (e :: rest) =
        publishOne ns e :: collectLoop ns [dedupKey ns e] rest by
      simp [collectLoop]]
    rw [collectLoop_eq_nil_of_seen ns rest [dedupKey ns e] ?_]
    · simp
    · intro x hx
      have hxl : x ∈ convertDatapointsToExports m labels unit now := by
        rw [hl]; exact List.mem_cons_of_mem e hx
      have hel : e ∈ convertDatapointsToExports m labels unit now := by
        rw [hl]; exact List.mem_cons_self e rest
      have := hkeys x hxl e hel
      simp [this]

theorem c10_sample_dedup_witness :
    (collectNs "SYS.ECS"
      (convertDatapointsToExports c10Dp [("namespace", "SYS.ECS")] "%" 0)).length = 1 :=
  (c10_sample_dedup "SYS.ECS" c10Dp [("namespace", "SYS.ECS")] "%" 0 (by decide)).2

/-- Claim C3 (amended): in an EVS namespace the resource id is split on its
last dash into server id and device; a first matching attachment with a
non-empty volume id replaces the resource id by that volume's id, and a
`disk_name` label is added exactly when that volume's name is non-empty; an id
with no interior dash, or a lookup with no match, leaves labels and id
unchanged, without a crash. -/

theorem c3_evs_decoding_amended (labels : GoMap) (rid ns : String)
    (volumes : Except String (List Volume)) :
    (¬(0 < lastIndexOf rid.data '-' ∧
        lastIndexOf rid.data '-' < (rid.data.length : Int) - 1) →
      handleEVSIfNeeded labels rid ns volumes = (labels, rid)) ∧
    (∀ vmID device : String,
      strContains ns "EVS" = true →
      0 < lastIndexOf rid.data '-' →
      lastIndexOf rid.data '-' < (rid.data.length : Int) - 1 →
      vmID = (⟨rid.data.take (lastIndexOf rid.data '-').toNat⟩ : String) →
      device = (⟨rid.data.drop ((lastIndexOf rid.data '-').toNat + 1)⟩ : String) →
      ((lookupEVSID volumes vmID device).1 = "" →
        handleEVSIfNeeded labels rid ns volumes = (labels, rid)) ∧
      (∀ volId volName : String,
        lookupEVSID volumes vmID device = (volId, volName) → volId ≠ "" →
        (handleEVSIfNeeded labels rid ns volumes).2 = volId ∧
        goGet (handleEVSIfNeeded labels rid ns volumes).1 LabelResourceID = some volId ∧
        (volName ≠ "" →
          goGet (handleEVSIfNeeded labels rid ns volumes).1 "disk_name" = some volName) ∧
        (volName = "" →
          goGet (handleEVSIfNeeded labels rid ns volumes).1 "disk_name" =
            goGet labels "disk_name"))) := by
  constructor
  · intro hdash
    unfold handleEVSIfNeeded
    cases hEVS : strContains ns "EVS" with
    | false => simp [hEVS]
    | true =>
      simp only [hEVS, Bool.not_true, Bool.false_eq_true, if_false]
      rw [if_pos (by omega)]
  · intro vmID device hEVS h0 h1 hvm hdev
    have hsplit : handleEVSIfNeeded labels rid ns volumes =
        (let r := lookupEVSID volumes vmID device
        if !(r.1 == "") then
          let l1 := goInsert labels LabelResourceID r.1
          let l2 := if !(r.2 == "") then goInsert l1 "disk_name" r.2 else l1
          (l2, r.1)
        else (labels, rid)) := by
      unfold handleEVSIfNeeded
      rw [hEVS]
      simp only [Bool.not_true, Bool.false_eq_true, if_false]
      rw [if_neg (by omega)]
      rw [← hvm, ← hdev]
    constructor
    · intro hnone
      rw [hsplit]
      simp [hnone]
    · intro volId volName hlook hvol
      have hvolb : (volId == "") = false := by simpa using hvol
      have hform : handleEVSIfNeeded labels rid ns volumes =
          ((if !(volName == "") then
              goInsert (goInsert labels LabelResourceID volId) "disk_name" volName
            else goInsert labels LabelResourceID volId), volId) := by
        rw [hsplit]
        simp [hlook, hvolb]
      rw [hform]
      refine ⟨rfl, ?_, ?_, ?_⟩
      · by_cases hname : volName = ""
        · simp only [hname, show (("" : String) == "") = true from rfl, Bool.not_true,
            Bool.false_eq_true, if_false]
          exact goGet_goInsert_same labels LabelResourceID volId
        · have hnb : (volName == "") = false := by simpa using hname
          simp only [hnb, Bool.not_false, if_true]
          rw [goGet_goInsert_ne _ _ _ _ (by decide)]
          exact goGet_goInsert_same labels LabelResourceID volId
      · intro hname
        have hnb : (volName == "") = false := by simpa using hname
        simp only [hnb, Bool.not_false, if_true]
        exact goGet_goInsert_same _ "disk_name" volName
      · intro hname
        simp only [hname, show (("" : String) == "") = true from rfl, Bool.not_true,
          Bool.false_eq_true, if_false]
        rw [goGet_goInsert_ne _ _ _ _ (by decide)]

/-- Claim C3 counterexample: the listed volumes contain an attachment matching
server "i-12345" and device "/dev/vdb", the id is replaced by the volume id,
but the matched volume's name is empty and no `disk_name` label is added —
refuting the unconditional "a disk_name label is added". -/

theorem c3_counterexample :
    (handleEVSIfNeeded [("namespace", "SYS.EVS")] "i-12345-vdb" "SYS.EVS" c3Volumes).2 =
      "vol-1" ∧
    goGet (handleEVSIfNeeded [("namespace", "SYS.EVS")] "i-12345-vdb" "SYS.EVS"
      c3Volumes).1 "disk_name" = none :=
  ⟨rfl, rfl⟩

theorem c3_evs_decoding_amended_witness :
    handleEVSIfNeeded [("namespace", "SYS.EVS")] "abc" "SYS.EVS" c3VolumesW =
      ([("namespace", "SYS.EVS")], "abc") ∧
    handleEVSIfNeeded [("namespace", "SYS.EVS")] "abc-" "SYS.EVS" c3VolumesW =
      ([("namespace", "SYS.EVS")], "abc-") ∧
    (handleEVSIfNeeded [("namespace", "SYS.EVS")] "i-12345-vdb" "SYS.EVS" c3VolumesW).2 =
      "vol-1" ∧
    goGet (handleEVSIfNeeded [("namespace", "SYS.EVS")] "i-12345-vdb" "SYS.EVS"
      c3VolumesW).1 LabelResourceID = some "vol-1" ∧
    goGet (handleEVSIfNeeded [("namespace", "SYS.EVS")] "i-12345-vdb" "SYS.EVS"
      c3VolumesW).1 "disk_name" = some "disk1" := by
  have hmain := (c3_evs_decoding_amended [("namespace", "SYS.EVS")] "i-12345-vdb"
      "SYS.EVS" c3VolumesW).2 "i-12345" "vdb" (by decide) (by decide) (by decide)
      (by decide) (by decide)
  have hres := hmain.2 "vol-1" "disk1" rfl (by decide)
  exact ⟨(c3_evs_decoding_amended [("namespace", "SYS.EVS")] "abc" "SYS.EVS"
      c3VolumesW).1 (by decide),
    (c3_evs_decoding_amended [("namespace", "SYS.EVS")] "abc-" "SYS.EVS"
      c3VolumesW).1 (by decide),
    hres.1, hres.2.1, hres.2.2.1 (by decide)⟩

/-- Claim C5 (amended): for an OBS data point on which the generic resource-id
scan finds no candidate, the special handling applies: with neither a
bucket-name nor an api-name dimension value, the resolved resource id and
resource name are both the sentinel "total"; with a non-empty api-name
dimension value, that value becomes the resource id and is attached as an
`operation` label. When the generic scan does find a candidate, the special
OBS handling is not applied. -/

theorem c5_obs_resolution_amended (m : BatchMetricData)
    (hscan : findResourceID (buildLabels NamespaceOBS m.dimensions) = "") :
    (getBucketNameFromDimensions m.dimensions = "" →
      getAPINameFromDimensions m.dimensions = "" →
      (extractLabelsAndResourceID m NamespaceOBS).2 = ResourceIDTotal ∧
      goGet (extractLabelsAndResourceID m NamespaceOBS).1 LabelResourceID =
        some ResourceIDTotal ∧
      goGet (extractLabelsAndResourceID m NamespaceOBS).1 LabelResourceName =
        some ResourceIDTotal) ∧
    (∀ a : String, getAPINameFromDimensions m.dimensions = a → a ≠ "" →
      (extractLabelsAndResourceID m NamespaceOBS).2 = a ∧
      goGet (extractLabelsAndResourceID m NamespaceOBS).1 LabelResourceID = some a ∧
      goGet (extractLabelsAndResourceID m NamespaceOBS).1 "operation" = some a) := by
  constructor
  · intro hb ha
    have hstep : extractLabelsAndResourceID m NamespaceOBS =
        (goInsert (goInsert (goInsert (goInsert (buildLabels NamespaceOBS m.dimensions)
            LabelResourceID ResourceIDTotal) LabelResourceName ResourceIDTotal)
            "scope" ResourceIDTotal) LabelResourceID ResourceIDTotal,
          ResourceIDTotal) := by
      unfold extractLabelsAndResourceID extractStep handleSpecialResourceID
      simp [hscan, hb, ha, show (ResourceIDTotal == "") = false from by decide]
    rw [hstep]
    refine ⟨rfl, goGet_goInsert_same _ _ _, ?_⟩
    rw [goGet_goInsert_ne _ _ _ _ (by decide)]
    rw [goGet_goInsert_ne _ _ _ _ (by decide)]
    exact goGet_goInsert_same _ _ _
  · intro a ha hane
    have hab : (a == "") = false := by simpa using hane
    have hstep : extractLabelsAndResourceID m NamespaceOBS =
        (goInsert (goInsert (buildLabels NamespaceOBS m.dimensions) "operation" a)
          LabelResourceID a, a) := by
      unfold extractLabelsAndResourceID extractStep handleSpecialResourceID
      simp [hscan, ha, hab]
    rw [hstep]
    refine ⟨rfl, goGet_goInsert_same _ _ _, ?_⟩
    rw [goGet_goInsert_ne _ _ _ _ (by decide)]
    exact goGet_goInsert_same _ _ _

/-- Claim C5 counterexample: an OBS data point whose dimensions contain neither
a bucket-name nor an api-name dimension, yet the resolved resource id is
"vm-1" — obtained by the generic `_id` scan — not the sentinel "total": the
service-scope override only applies when the generic scan finds nothing. -/

theorem c5_counterexample :
    getBucketNameFromDimensions c5Dp.dimensions = "" ∧
    getAPINameFromDimensions c5Dp.dimensions = "" ∧
    (extractLabelsAndResourceID c5Dp NamespaceOBS).2 = "vm-1" ∧
    (extractLabelsAndResourceID c5Dp NamespaceOBS).2 ≠ ResourceIDTotal := by
  refine ⟨rfl, rfl, rfl, by decide⟩

theorem c5_obs_resolution_amended_witness :
    ((extractLabelsAndResourceID c5TotalDp NamespaceOBS).2 = ResourceIDTotal ∧
      goGet (extractLabelsAndResourceID c5TotalDp NamespaceOBS).1 LabelResourceID =
        some ResourceIDTotal ∧
      goGet (extractLabelsAndResourceID c5TotalDp NamespaceOBS).1 LabelResourceName =
        some ResourceIDTotal) ∧
    ((extractLabelsAndResourceID c5ApiDp NamespaceOBS).2 = "unknown" ∧
      goGet (extractLabelsAndResourceID c5ApiDp NamespaceOBS).1 LabelResourceID =
        some "unknown" ∧
      goGet (extractLabelsAndResourceID c5ApiDp NamespaceOBS).1 "operation" =
        some "unknown") :=
  ⟨(c5_obs_resolution_amended c5TotalDp rfl).1 rfl rfl,
   (c5_obs_resolution_amended c5ApiDp rfl).2 "unknown" rfl (by decide)⟩

theorem ridOk_insert (labels : GoMap) (k v : String)
    (hk : k = LabelResourceID → v ≠ "") (h : ridOk labels) :
    ridOk (goInsert labels k v) := by
  by_cases hkey : k = LabelResourceID
  · subst hkey
    exact ⟨v, goGet_goInsert_same _ _ _, hk rfl⟩
  · obtain ⟨v0, hv0, hne⟩ := h
    exact ⟨v0, by rw [goGet_goInsert_ne _ _ _ _ (fun hh => hkey hh.symm)]; exact hv0, hne⟩

theorem rnSafe_insert (labels : GoMap) (k v : String)
    (hk : k = LabelResourceName → v ≠ "") (h : rnSafe labels) :
    rnSafe (goInsert labels k v) := by
  intro w hw
  by_cases hkey : k = LabelResourceName
  · subst hkey
    rw [goGet_goInsert_same] at hw
    cases hw
    exact hk rfl
  · rw [goGet_goInsert_ne _ _ _ _ (fun hh => hkey hh.symm)] at hw
    exact h w hw

theorem present_insert (labels : GoMap) (k v k0 : String)
    (h : ∃ w, goGet labels k0 = some w) :
    ∃ w, goGet (goInsert labels k v) k0 = some w := by
  by_cases hkey : k = k0
  · subst hkey
    exact ⟨v, goGet_goInsert_same _ _ _⟩
  · obtain ⟨w, hw⟩ := h
    exact ⟨w, by rw [goGet_goInsert_ne _ _ _ _ (fun hh => hkey hh.symm)]; exact hw⟩

theorem foldl_preserve {β : Type} (Pr : GoMap → Prop) (step : GoMap → β → GoMap) :
    ∀ (l : List β) (acc : GoMap), Pr acc →
      (∀ x ∈ l, ∀ a, Pr a → Pr (step a x)) → Pr (List.foldl step acc l) := by
  intro l
  induction l with
  | nil => intro acc h _; simpa using h
  | cons x rest ih =>
    intro acc h hstep
    simp only [List.foldl_cons]
    exact ih (step acc x) (hstep x (List.mem_cons_self x rest) acc h)
      (fun y hy => hstep y (List.mem_cons_of_mem x hy))

/-- A string starting with the character prefix of `"tag_"` begins with 't'. -/

theorem head_of_startsWith_tag (s : String) (h : strStartsWith s "tag_" = true) :
    s.data.head? = some 't' := by
  unfold strStartsWith at h
  cases hs : s.data with
  | nil => rw [hs] at h; simp [listStartsWith] at h
  | cons c rest =>
    rw [hs] at h
    simp only [show "tag_".data = ['t', 'a', 'g', '_'] from rfl, listStartsWith,
      Bool.and_eq_true, beq_iff_eq] at h
    rw [h.1]
    rfl

theorem startsWith_tag_ne_rid (s : String) (h : strStartsWith s "tag_" = true) :
    s ≠ LabelResourceID := by
  intro he
  have := head_of_startsWith_tag s h
  rw [he] at this
  simp [LabelResourceID] at this

theorem startsWith_tag_ne_rn (s : String) (h : strStartsWith s "tag_" = true) :
    s ≠ LabelResourceName := by
  intro he
  have := head_of_startsWith_tag s h
  rw [he] at this
  simp [LabelResourceName] at this

theorem append_tag_startsWith (k : String) :
    strStartsWith ("tag_" ++ k) "tag_" = true := by
  unfold strStartsWith
  rw [String.data_append]
  rfl

/-- The resolver always produces a non-empty resource id and writes it as the
`resource_id` label. -/

theorem extract_ridOk (m : BatchMetricData) (ns : String) :
    ridOk (extractLabelsAndResourceID m ns).1 ∧
    (extractLabelsAndResourceID m ns).2 ≠ "" ∧
    goGet (extractLabelsAndResourceID m ns).1 LabelResourceID =
      some (extractLabelsAndResourceID m ns).2 := by
  simp only [extractLabelsAndResourceID]
  by_cases h : (extractStep m ns).2 = ""
  · have hb : ((extractStep m ns).2 == "") = true := by simpa using h
    simp only [hb, if_true]
    exact ⟨⟨ResourceIDUnknown, goGet_goInsert_same _ _ _, by decide⟩, by decide,
      goGet_goInsert_same _ _ _⟩
  · have hb : ((extractStep m ns).2 == "") = false := by simpa using h
    simp only [hb, Bool.false_eq_true, if_false]
    exact ⟨⟨(extractStep m ns).2, goGet_goInsert_same _ _ _, h⟩, h,
      goGet_goInsert_same _ _ _⟩

theorem buildLabels_rnSafe (ns : String) (dims : Option (List Dimension))
    (hdim : ∀ d ∈ safeDimensions dims,
      goToLowerStr d.name = LabelResourceName → goTrim d.value ≠ "") :
    rnSafe (buildLabels ns dims) := by
  unfold buildLabels
  refine foldl_preserve rnSafe _ (safeDimensions dims) _ ?_ ?_
  · intro w hw
    simp [goGet, show (LabelNamespace == LabelResourceName) = false from by decide] at hw
  · intro d hd a ha
    exact rnSafe_insert a _ _ (fun hk => hdim d hd hk) ha

theorem handleSpecial_rnSafe (labels : GoMap) (m : BatchMetricData) (ns : String)
    (h : rnSafe labels) : rnSafe (handleSpecialResourceID labels m ns).1 := by
  unfold handleSpecialResourceID
  cases hns : (ns == NamespaceOBS) with
  | false => simpa [hns] using h
  | true =>
    simp only [hns, if_true]
    by_cases hba : (getBucketNameFromDimensions m.dimensions == "" &&
        getAPINameFromDimensions m.dimensions == "") = true
    · simp only [hba, if_true]
      refine rnSafe_insert _ _ _ (fun hk => absurd hk (by decide)) ?_
      refine rnSafe_insert _ _ _ (fun _ => by decide) ?_
      exact rnSafe_insert _ _ _ (fun hk => absurd hk (by decide)) h
    · have hba' : (getBucketNameFromDimensions m.dimensions == "" &&
          getAPINameFromDimensions m.dimensions == "") = false := by
        simpa using hba
      simp only [hba', Bool.false_eq_true, if_false]
      by_cases hapi : (getAPINameFromDimensions m.dimensions == "") = false
      · simp only [hapi, Bool.not_false, if_true]
        exact rnSafe_insert _ _ _ (fun hk => absurd hk (by decide)) h
      · have hapi' : (getAPINameFromDimensions m.dimensions == "") = true := by
          cases he : (getAPINameFromDimensions m.dimensions == "")
          · exact absurd he hapi
          · rfl
        simpa [hapi'] using h

theorem extract_rnSafe (m : BatchMetricData) (ns : String)
    (hdim : ∀ d ∈ safeDimensions m.dimensions,
      goToLowerStr d.name = LabelResourceName → goTrim d.value ≠ "") :
    rnSafe (extractLabelsAndResourceID m ns).1 := by
  have hb : rnSafe (buildLabels ns m.dimensions) := buildLabels_rnSafe ns m.dimensions hdim
  have hstep : rnSafe (extractStep m ns).1 := by
    simp only [extractStep]
    by_cases hfind : (findResourceID (buildLabels ns m.dimensions) == "") = true
    · simp only [hfind, if_true]
      exact handleSpecial_rnSafe _ _ _ hb
    · have hfind' : (findResourceID (buildLabels ns m.dimensions) == "") = false := by
        cases he : (findResourceID (buildLabels ns m.dimensions) == "")
        · rfl
        · exact absurd he hfind
      simpa [hfind'] using hb
  simp only [extractLabelsAndResourceID]
  exact rnSafe_insert _ _ _ (fun hk => absurd hk (by decide)) hstep

theorem handleEVS_preserves (labels : GoMap) (rid ns : String)
    (volumes : Except String (List Volume)) (hrid : ridOk labels) :
    ridOk (handleEVSIfNeeded labels rid ns volumes).1 ∧
    (rnSafe labels → rnSafe (handleEVSIfNeeded labels rid ns volumes).1) := by
  unfold handleEVSIfNeeded
  cases hEVS : strContains ns "EVS" with
  | false => exact ⟨by simpa [hEVS] using hrid, fun h => by simpa [hEVS] using h⟩
  | true =>
    simp only [hEVS, Bool.not_true, Bool.false_eq_true, if_false]
    split
    · exact ⟨hrid, fun h => h⟩
    · set vmID : String := ⟨rid.data.take (lastIndexOf rid.data '-').toNat⟩ with hvm
      set device : String := ⟨rid.data.drop ((lastIndexOf rid.data '-').toNat + 1)⟩
        with hdev
      by_cases hvol : ((lookupEVSID volumes vmID device).1 == "") = false
      · have hvne : (lookupEVSID volumes vmID device).1 ≠ "" := by simpa using hvol
        simp only [hvol, Bool.not_false, if_true]
        constructor
        · split
          · refine ridOk_insert _ _ _ (fun hk => absurd hk (by decide)) ?_
            exact ridOk_insert _ _ _ (fun _ => hvne) hrid
          · exact ridOk_insert _ _ _ (fun _ => hvne) hrid
        · intro h
          split
          · refine rnSafe_insert _ _ _ (fun hk => absurd hk (by decide)) ?_
            exact rnSafe_insert _ _ _ (fun hk => absurd hk (by decide)) h
          · exact rnSafe_insert _ _ _ (fun hk => absurd hk (by decide)) h
      · have hvol' : ((lookupEVSID volumes vmID device).1 == "") = true := by
          cases he : ((lookupEVSID volumes vmID device).1 == "")
          · exact absurd he hvol
          · rfl
        simp only [hvol', Bool.not_true, Bool.false_eq_true, if_false]
        exact ⟨hrid, fun h => h⟩

theorem enrichOBS_preserves (env : PipelineEnv) (labels : GoMap) (bucket : String)
    (hrid : ridOk labels) :
    ridOk (enrichOBSBucketInfo env labels bucket) ∧
    (rnSafe labels → rnSafe (enrichOBSBucketInfo env labels bucket)) := by
  unfold enrichOBSBucketInfo
  cases hp : env.obsPresent with
  | false => exact ⟨by simpa [hp] using hrid, fun h => by simpa [hp] using h⟩
  | true =>
    simp only [hp, Bool.not_true, Bool.false_eq_true, if_false]
    have htags : ∀ (l : GoMap),
        (ridOk l → ridOk (match env.obsTags bucket with
          | .ok tags => tags.foldl (fun l t => goInsert l ("tag_" ++ t.1) t.2) l
          | .error _ => l)) ∧
        (rnSafe l → rnSafe (match env.obsTags bucket with
          | .ok tags => tags.foldl (fun l t => goInsert l ("tag_" ++ t.1) t.2) l
          | .error _ => l)) := by
      intro l
      cases henv : env.obsTags bucket with
      | error e => exact ⟨fun h => h, fun h => h⟩
      | ok tags =>
        constructor
        · intro h
          refine foldl_preserve ridOk _ tags l h ?_
          intro t _ a ha
          refine ridOk_insert _ _ _ (fun hk => ?_) ha
          exact absurd hk (startsWith_tag_ne_rid _ (append_tag_startsWith t.1))
        · intro h
          refine foldl_preserve rnSafe _ tags l h ?_
          intro t _ a ha
          refine rnSafe_insert _ _ _ (fun hk => ?_) ha
          exact absurd hk (startsWith_tag_ne_rn _ (append_tag_startsWith t.1))
    have hinfo : ∀ (l : GoMap),
        (ridOk l → ridOk (match getBucketInfoModel env bucket with
          | .ok info => info.foldl (fun l t => goInsert l t.1 t.2) l
          | .error _ => l)) ∧
        (rnSafe l → rnSafe (match getBucketInfoModel env bucket with
          | .ok info => info.foldl (fun l t => goInsert l t.1 t.2) l
          | .error _ => l)) := by
      intro l
      unfold getBucketInfoModel
      cases hloc : env.obsLocation bucket with
      | error e => exact ⟨fun h => h, fun h => h⟩
      | ok loc =>
        simp only [List.foldl_cons, List.foldl_nil]
        constructor
        · intro h
          refine ridOk_insert _ _ _ (fun hk => absurd hk (by decide)) ?_
          exact ridOk_insert _ _ _ (fun hk => absurd hk (by decide)) h
        · intro h
          refine rnSafe_insert _ _ _ (fun hk => absurd hk (by decide)) ?_
          exact rnSafe_insert _ _ _ (fun hk => absurd hk (by decide)) h
    constructor
    · exact (hinfo _).1 ((htags labels).1 hrid)
    · intro h
      exact (hinfo _).2 ((htags labels).2 h)

theorem handleOBS_preserves (env : PipelineEnv) (labels : GoMap)
    (m : BatchMetricData) (ns : String) (hrid : ridOk labels) :
    ridOk (handleOBSIfNeeded env labels m ns) ∧
    (rnSafe labels → rnSafe (handleOBSIfNeeded env labels m ns)) := by
  unfold handleOBSIfNeeded
  cases hns : (ns == NamespaceOBS) with
  | false => exact ⟨by simpa [hns] using hrid, fun h => by simpa [hns] using h⟩
  | true =>
    simp only [hns, Bool.not_true, Bool.false_eq_true, if_false]
    by_cases hbn : (getBucketNameFromDimensions m.dimensions == "") = false
    · simp only [hbn, Bool.not_false, if_true]
      have hins : ridOk (goInsert labels "bucket_name"
          (getBucketNameFromDimensions m.dimensions)) :=
        ridOk_insert _ _ _ (fun hk => absurd hk (by decide)) hrid
      constructor
      · exact (enrichOBS_preserves env _
          (getBucketNameFromDimensions m.dimensions) hins).1
      · intro h
        exact (enrichOBS_preserves env _
            (getBucketNameFromDimensions m.dimensions) hins).2
          (rnSafe_insert _ _ _ (fun hk => absurd hk (by decide)) h)
    · have hbn' : (getBucketNameFromDimensions m.dimensions == "") = true := by
        cases he : (getBucketNameFromDimensions m.dimensions == "")
        · exact absurd he hbn
        · rfl
      simp only [hbn', Bool.not_true, Bool.false_eq_true, if_false]
      obtain ⟨v, hv, hvne⟩ := hrid
      have hgd : goGetD labels LabelResourceID = v := by simp [goGetD, hv]
      cases ht : goGet labels "tenant_id" with
      | some t =>
        by_cases htid : (goGetD labels LabelResourceID == t) = true
        · simp only [htid, if_true]
          constructor
          · refine ridOk_insert _ _ _ (fun _ => by decide) ?_
            exact ridOk_insert _ _ _ (fun hk => absurd hk (by decide)) ⟨v, hv, hvne⟩
          · intro h
            refine rnSafe_insert _ _ _ (fun hk => absurd hk (by decide)) ?_
            exact rnSafe_insert _ _ _ (fun _ => by decide) h
        · have htid' : (goGetD labels LabelResourceID == t) = false := by
            cases he : (goGetD labels LabelResourceID == t)
            · rfl
            · exact absurd he htid
          simp only [htid', Bool.false_eq_true, if_false]
          constructor
          · exact ridOk_insert _ _ _ (fun hk => absurd hk (by decide)) ⟨v, hv, hvne⟩
          · intro h
            exact rnSafe_insert _ _ _ (fun _ => by rw [hgd]; exact hvne) h
      | none =>
        constructor
        · exact ridOk_insert _ _ _ (fun hk => absurd hk (by decide)) ⟨v, hv, hvne⟩
        · intro h
          exact rnSafe_insert _ _ _ (fun _ => by rw [hgd]; exact hvne) h

theorem withRetryGo_error_of_all_error {α : Type} (op : Nat → Except String α)
    (rc : RetryConfig) (name : String) (h : ∀ k, ∃ e, op k = .error e) :
    ∀ fuel attempt, ∃ e, (withRetryGo op rc name fuel attempt).1 = .error e := by
  intro fuel
  induction fuel with
  | zero =>
    intro attempt
    obtain ⟨e, he⟩ := h attempt
    refine ⟨wrapRetryErr name rc e, ?_⟩
    conv_lhs => unfold withRetryGo
    cases hsr : shouldRetry rc e attempt with
    | false => simp [he, hsr]
    | true => simp [he, hsr]
  | succ f ih =>
    intro attempt
    obtain ⟨e, he⟩ := h attempt
    cases hsr : shouldRetry rc e attempt with
    | false =>
      refine ⟨wrapRetryErr name rc e, ?_⟩
      conv_lhs => unfold withRetryGo
      simp [he, hsr]
    | true =>
      obtain ⟨e', he'⟩ := ih (attempt + 1)
      refine ⟨e', ?_⟩
      conv_lhs => unfold withRetryGo
      simp [he, hsr, he']

theorem applyRMS_preserves (env : PipelineEnv) (cfg : GlobalCfg) (labels r : GoMap)
    (hrid : ridOk labels) :
    ridOk (applyRMSEnrichment env cfg labels r) ∧
    (rnSafe labels → rnSafe (applyRMSEnrichment env cfg labels r)) := by
  unfold applyRMSEnrichment
  have step1 : ∀ (l : GoMap), (ridOk l → ridOk (if cfg.exportRMSLabels LabelResourceName then
        if !(goGetD r "name" == "") then goInsert l LabelResourceName (goGetD r "name")
        else if !(goGetD r "resource_name" == "") then
          goInsert l LabelResourceName (goGetD r "resource_name")
        else l
      else l)) ∧
      (rnSafe l → rnSafe (if cfg.exportRMSLabels LabelResourceName then
        if !(goGetD r "name" == "") then goInsert l LabelResourceName (goGetD r "name")
        else if !(goGetD r "resource_name" == "") then
          goInsert l LabelResourceName (goGetD r "resource_name")
        else l
      else l)) := by
    intro l
    constructor
    · intro h
      split
      · split
        · exact ridOk_insert _ _ _ (fun hk => absurd hk (by decide)) h
        · split
          · exact ridOk_insert _ _ _ (fun hk => absurd hk (by decide)) h
          · exact h
      · exact h
    · intro h
      split
      · split
        · next hname => exact rnSafe_insert _ _ _ (fun _ => by simpa using hname) h
        · split
          · next hname => exact rnSafe_insert _ _ _ (fun _ => by simpa using hname) h
          · exact h
      · exact h
  have stepK : ∀ (k0 v0 : String) (l : GoMap), k0 ≠ LabelResourceID →
      k0 ≠ LabelResourceName →
      (ridOk l → ridOk (if cfg.exportRMSLabels k0 then goInsert l k0 v0 else l)) ∧
      (rnSafe l → rnSafe (if cfg.exportRMSLabels k0 then goInsert l k0 v0 else l)) := by
    intro k0 v0 l hk1 hk2
    constructor
    · intro h
      split
      · exact ridOk_insert _ _ _ (fun hk => absurd hk hk1) h
      · exact h
    · intro h
      split
      · exact rnSafe_insert _ _ _ (fun hk => absurd hk hk2) h
      · exact h
  have stepT : ∀ (l : GoMap),
      (ridOk l → ridOk (if cfg.exportRMSLabels "tags" then
        r.foldl (fun a t =>
          if strStartsWith t.1 "tag_" && !(t.2 == "") then goInsert a t.1 t.2 else a) l
      else l)) ∧
      (rnSafe l → rnSafe (if cfg.exportRMSLabels "tags" then
        r.foldl (fun a t =>
          if strStartsWith t.1 "tag_" && !(t.2 == "") then goInsert a t.1 t.2 else a) l
      else l)) := by
    intro l
    constructor
    · intro h
      split
      · refine foldl_preserve ridOk _ r l h ?_
        intro t _ a ha
        split
        · next hg =>
          have hne : t.2 ≠ "" := by
            have := (Bool.and_eq_true _ _).mp hg
            simpa using this.2
          exact ridOk_insert _ _ _ (fun _ => hne) ha
        · exact ha
      · exact h
    · intro h
      split
      · refine foldl_preserve rnSafe _ r l h ?_
        intro t _ a ha
        split
        · next hg =>
          have hne : t.2 ≠ "" := by
            have := (Bool.and_eq_true _ _).mp hg
            simpa using this.2
          exact rnSafe_insert _ _ _ (fun _ => hne) ha
        · exact ha
      · exact h
  have stepId : ∀ (l : GoMap),
      (ridOk l → ridOk (if !(goGetD r "id" == "") then
        goInsert l LabelResourceID (goGetD r "id") else l)) ∧
      (rnSafe l → rnSafe (if !(goGetD r "id" == "") then
        goInsert l LabelResourceID (goGetD r "id") else l)) := by
    intro l
    constructor
    · intro h
      split
      · next hid => exact ridOk_insert _ _ _ (fun _ => by simpa using hid) h
      · exact h
    · intro h
      split
      · exact rnSafe_insert _ _ _ (fun hk => absurd hk (by decide)) h
      · exact h
  constructor
  · exact (stepId _).1 ((stepT _).1 ((stepK "domain_name" cfg.domainName _
      (by decide) (by decide)).1 ((stepK LabelProjectName env.projectName _
      (by decide) (by decide)).1 ((stepK LabelProjectID env.projectID _
      (by decide) (by decide)).1 ((step1 _).1 hrid)))))
  · intro h
    exact (stepId _).2 ((stepT _).2 ((stepK "domain_name" cfg.domainName _
      (by decide) (by decide)).2 ((stepK LabelProjectName env.projectName _
      (by decide) (by decide)).2 ((stepK LabelProjectID env.projectID _
      (by decide) (by decide)).2 ((step1 _).2 h)))))

theorem enrichRMS_preserves (env : PipelineEnv) (cfg : GlobalCfg) (labels : GoMap)
    (rid ns : String) (hrid : ridOk labels) :
    ridOk (enrichWithRMSIfNeeded env cfg labels rid ns) ∧
    (rnSafe labels → rnSafe (enrichWithRMSIfNeeded env cfg labels rid ns)) := by
  unfold enrichWithRMSIfNeeded
  cases hs : shouldEnrichWithRMS env rid ns with
  | false => exact ⟨by simpa [hs] using hrid, fun h => by simpa [hs] using h⟩
  | true =>
    simp only [hs, Bool.not_true, Bool.false_eq_true, if_false]
    cases hr : (withRetry (env.rms rid) cfg.retry
        ("get RMS resource info for " ++ rid)).1 with
    | error e => exact ⟨hrid, fun h => h⟩
    | ok rmsResource => exact applyRMS_preserves env cfg labels rmsResource hrid

theorem finalLabels_ok (env : PipelineEnv) (cfg : GlobalCfg) (ns : String)
    (m : BatchMetricData) :
    ridOk (finalLabels env cfg ns m) ∧
    (∃ w, goGet (finalLabels env cfg ns m) LabelResourceName = some w) ∧
    ((∀ d ∈ safeDimensions m.dimensions,
        goToLowerStr d.name = LabelResourceName → goTrim d.value ≠ "") →
      rnSafe (finalLabels env cfg ns m)) := by
  have h0 := (extract_ridOk m ns).1
  have hEVS := handleEVS_preserves (extractLabelsAndResourceID m ns).1
    (extractLabelsAndResourceID m ns).2 ns env.volumes h0
  have hOBS := handleOBS_preserves env
    (handleEVSIfNeeded (extractLabelsAndResourceID m ns).1
      (extractLabelsAndResourceID m ns).2 ns env.volumes).1 m ns hEVS.1
  have hRMS := enrichRMS_preserves env cfg
    (handleOBSIfNeeded env
      (handleEVSIfNeeded (extractLabelsAndResourceID m ns).1
        (extractLabelsAndResourceID m ns).2 ns env.volumes).1 m ns)
    (handleEVSIfNeeded (extractLabelsAndResourceID m ns).1
      (extractLabelsAndResourceID m ns).2 ns env.volumes).2 ns hOBS.1
  simp only [finalLabels]
  refine ⟨?_, ?_, ?_⟩
  · split
    · exact hRMS.1
    · exact ridOk_insert _ _ _ (fun hk => absurd hk (by decide)) hRMS.1
  · split
    · next hsome => exact Option.isSome_iff_exists.mp hsome
    · exact ⟨ResourceIDUnknown, goGet_goInsert_same _ _ _⟩
  · intro hdim
    have hrn := hRMS.2 (hOBS.2 (hEVS.2 (extract_rnSafe m ns hdim)))
    split
    · exact hrn
    · exact rnSafe_insert _ _ _ (fun _ => by decide) hrn

/-- Claim C9 (amended): every export record of the per-scrape processing
carries a non-empty `resource_id` label (the resolved id or the sentinel
"unknown") and a `resource_name` label; `resource_name` is non-empty —
defaulting to "unknown" when nothing supplied a name — except when a raw
dimension literally named `resource_name` carries an empty value, which is
stored as-is and bypasses the existence-only default check. -/

theorem c9_labels_amended (env : PipelineEnv) (cfg : GlobalCfg) (ns : String)
    (m : BatchMetricData) (now : Int) (e : MetricExport)
    (he : e ∈ perMetric env cfg ns m now) :
    (∃ v, goGet e.labels LabelResourceID = some v ∧ v ≠ "") ∧
    (∃ w, goGet e.labels LabelResourceName = some w) ∧
    ((∀ d ∈ safeDimensions m.dimensions,
        goToLowerStr d.name = LabelResourceName → goTrim d.value ≠ "") →
      ∀ w, goGet e.labels LabelResourceName = some w → w ≠ "") := by
  obtain ⟨hn, hlab, hu⟩ := mem_convertDatapointsToExports m
    (finalLabels env cfg ns m) (safeUnit m.unit) now e
    (by simpa [perMetric] using he)
  obtain ⟨hrid, hpres, hsafe⟩ := finalLabels_ok env cfg ns m
  rw [hlab]
  unfold labelsWithUnitOf
  refine ⟨?_, ?_, ?_⟩
  · split
    · obtain ⟨v, hv, hvne⟩ := hrid
      exact ⟨v, by rw [goGet_goInsert_ne _ _ _ _ (by decide)]; exact hv, hvne⟩
    · exact hrid
  · split
    · exact present_insert _ _ _ _ hpres
    · exact hpres
  · intro hdim w
    have hs := hsafe hdim
    split
    · intro hw
      rw [goGet_goInsert_ne _ _ _ _ (by decide)] at hw
      exact hs w hw
    · intro hw
      exact hs w hw

/-- Claim C9 counterexample: a data point carrying a raw dimension literally
named `resource_name` with an empty value produces an export whose
`resource_name` label is the empty string — the existence-only default check
does not replace it with "unknown". -/

theorem c9_counterexample :
    (perMetric c9Env c9Cfg "SYS.ECS" c9Dp 0).map
      (fun e => goGet e.labels LabelResourceName) = [some ""] := rfl

theorem c9_labels_amended_witness :
    (∃ v, goGet c9We.labels LabelResourceID = some v ∧ v ≠ "") ∧
    (∃ w, goGet c9We.labels LabelResourceName = some w) ∧
    ((∀ d ∈ safeDimensions c9WDp.dimensions,
        goToLowerStr d.name = LabelResourceName → goTrim d.value ≠ "") →
      ∀ w, goGet c9We.labels LabelResourceName = some w → w ≠ "") :=
  c9_labels_amended c9Env c9Cfg "SYS.ECS" c9WDp 0 c9We
    (by rw [show perMetric c9Env c9Cfg "SYS.ECS" c9WDp 0 = [c9We] from rfl]
        exact List.mem_singleton_self _)

theorem convert_length (m : BatchMetricData) (labels : GoMap) (unit : String)
    (now : Int) :
    (convertDatapointsToExports m labels unit now).length =
      if m.datapoints.isEmpty then 1 else m.datapoints.length := by
  unfold convertDatapointsToExports
  by_cases h : m.datapoints.isEmpty
  · simp [h, createSingleExport]
  · rw [if_neg h, if_neg h, convert_foldl_length]
    simp

theorem perMetric_length (env : PipelineEnv) (cfg : GlobalCfg) (ns : String)
    (m : BatchMetricData) (now : Int) :
    (perMetric env cfg ns m now).length =
      if m.datapoints.isEmpty then 1 else m.datapoints.length := by
  unfold perMetric
  exact convert_length m (finalLabels env cfg ns m) (safeUnit m.unit) now

/-- The record count of a scrape depends only on the shape of the batch data,
never on the outcome of any enrichment call. -/

theorem processMetrics_length (env : PipelineEnv) (cfg : GlobalCfg) (ns : String)
    (batch : List BatchMetricData) (now : Int) :
    (processMetrics env cfg ns batch now).length =
      ((batch.filter (fun m => !(m.metricName == "") &&
          !shouldSkipMetric m.metricName ns)).map
        (fun m => if m.datapoints.isEmpty then 1 else m.datapoints.length)).sum := by
  unfold processMetrics
  rw [List.length_flatMap]
  congr 1
  refine List.map_congr_left ?_
  intro m _
  exact perMetric_length env cfg ns m now

/-- Claim C8: a catalog-listing or batch-fetch failure (after retry
exhaustion) aborts the namespace's scrape, which returns no records; a
per-resource enrichment failure (RMS inventory or OBS bucket lookup) never
aborts — the record count is unchanged and the failing enrichment leaves the
labels exactly as they were. -/

theorem c8_failure_propagation (env : BatchEnv) (cfg : GlobalCfg)
    (ns pn : String) (now : Int) :
    (∀ e, (withRetry env.listDefs cfg.retry
        ("fetch metrics for namespace " ++ ns)).1 = .error e →
      exportMetricValuesBatch env cfg ns pn now = []) ∧
    (∀ e, (withRetry env.batchQuery cfg.retry "fetch time series data").1 = .error e →
      exportMetricValuesBatch env cfg ns pn now = []) ∧
    (∀ (penv : PipelineEnv) (batch : List BatchMetricData),
      (processMetrics penv cfg ns batch now).length =
        ((batch.filter (fun m => !(m.metricName == "") &&
            !shouldSkipMetric m.metricName ns)).map
          (fun m => if m.datapoints.isEmpty then 1 else m.datapoints.length)).sum) ∧
    (∀ (penv : PipelineEnv) (labels : GoMap) (rid : String),
      (∀ k, ∃ e, penv.rms rid k = .error e) →
      enrichWithRMSIfNeeded penv cfg labels rid ns = labels) ∧
    (∀ (penv : PipelineEnv) (labels : GoMap) (bucket : String),
      (∃ e, penv.obsTags bucket = .error e) →
      (∃ e, penv.obsLocation bucket = .error e) →
      enrichOBSBucketInfo penv labels bucket = labels) := by
  refine ⟨?_, ?_, ?_, ?_, ?_⟩
  · intro e he
    unfold exportMetricValuesBatch
    split
    · rfl
    · simp only [he]
  · intro e he
    unfold exportMetricValuesBatch
    split
    · rfl
    · cases hdefs : (withRetry env.listDefs cfg.retry
          ("fetch metrics for namespace " ++ ns)).1 with
      | error e2 => rfl
      | ok k =>
        by_cases hk : (k == 0) = true
        · simp [hk]
        · have hk' : (k == 0) = false := by
            cases h2 : (k == 0)
            · rfl
            · exact absurd h2 hk
          simp [hk', he]
  · intro penv batch
    exact processMetrics_length penv cfg ns batch now
  · intro penv labels rid hall
    unfold enrichWithRMSIfNeeded
    cases hs : shouldEnrichWithRMS penv rid ns with
    | false => simp [hs]
    | true =>
      simp only [hs, Bool.not_true, Bool.false_eq_true, if_false]
      obtain ⟨e, he⟩ := withRetryGo_error_of_all_error (penv.rms rid) cfg.retry
        ("get RMS resource info for " ++ rid) hall cfg.retry.maxRetries 0
      rw [show (withRetry (penv.rms rid) cfg.retry
          ("get RMS resource info for " ++ rid)).1 = .error e from he]
  · intro penv labels bucket h1 h2
    obtain ⟨e1, he1⟩ := h1
    obtain ⟨e2, he2⟩ := h2
    unfold enrichOBSBucketInfo getBucketInfoModel
    cases hp : penv.obsPresent with
    | false => simp [hp]
    | true => simp [hp, he1, he2]

theorem c8_failure_propagation_witness :
    exportMetricValuesBatch c8Env c8Cfg "SYS.ECS" "proj" 0 = [] ∧
    (processMetrics c8Pipe c8Cfg "SYS.ECS" c8Batch 0).length =
      ((c8Batch.filter (fun m => !(m.metricName == "") &&
          !shouldSkipMetric m.metricName "SYS.ECS")).map
        (fun m => if m.datapoints.isEmpty then 1 else m.datapoints.length)).sum ∧
    enrichWithRMSIfNeeded c8Pipe c8Cfg [("a", "b")] "vm-1" "SYS.ECS" = [("a", "b")] ∧
    enrichOBSBucketInfo c8Pipe [("a", "b")] "bkt" = [("a", "b")] :=
  ⟨(c8_failure_propagation c8Env c8Cfg "SYS.ECS" "proj" 0).1
      (wrapRetryErr "fetch metrics for namespace SYS.ECS" c8Rc "boom") rfl,
   (c8_failure_propagation c8Env c8Cfg "SYS.ECS" "proj" 0).2.2.1 c8Pipe c8Batch,
   (c8_failure_propagation c8Env c8Cfg "SYS.ECS" "proj" 0).2.2.2.1 c8Pipe
      [("a", "b")] "vm-1" (fun _ => ⟨"down", rfl⟩),
   (c8_failure_propagation c8Env c8Cfg "SYS.ECS" "proj" 0).2.2.2.2 c8Pipe
      [("a", "b")] "bkt" ⟨"down", rfl⟩ ⟨"down", rfl⟩⟩
